import Mathlib

/-!
Verification of the pirate-game simulation core: a shallow embedding of the
vessel kinematics (src/src/game/ship.ts), the projectile damage model
(src/src/game/projectile.ts), the AI aggression state machine
(src/unnamed/part_000) and the collision/ramming resolver
(src/unnamed/part_004), with theorems settling the spec's testable
properties.  Numbers are embedded as real numbers (the source computes with
IEEE doubles, idealised here as exact real arithmetic); the AI aggression
bookkeeping, which needs no square roots, is embedded over the rationals so
its facts evaluate by decide.
-/

namespace PirateGame

/-! ## 2D vectors (src/src/core/vector.ts)

A vector is a pair of reals.  Vec2.add/sub are pairwise (the Prod instances),
Vec2.scale multiplies both components, Vec2.len is the euclidean norm
(Math.hypot), Vec2.dot the dot product, Vec2.rotated the rotation matrix
applied to the vector. -/

abbrev Vec2 : Type := ℝ × ℝ

def scale (v : Vec2) (s : ℝ) : Vec2 := (v.1 * s, v.2 * s)

def dot (a b : Vec2) : ℝ := a.1 * b.1 + a.2 * b.2

noncomputable def len (v : Vec2) : ℝ := Real.sqrt (v.1 ^ 2 + v.2 ^ 2)

noncomputable def rotated (v : Vec2) (theta : ℝ) : Vec2 :=
  (v.1 * Real.cos theta - v.2 * Real.sin theta,
   v.1 * Real.sin theta + v.2 * Real.cos theta)

theorem len_nonneg (v : Vec2) : 0 ≤ len v := Real.sqrt_nonneg _

theorem len_scale (v : Vec2) (s : ℝ) : len (scale v s) = |s| * len v := by
  unfold len scale
  rw [show (v.1 * s) ^ 2 + (v.2 * s) ^ 2 = s ^ 2 * (v.1 ^ 2 + v.2 ^ 2) by ring,
    Real.sqrt_mul (sq_nonneg s), Real.sqrt_sq_eq_abs]

theorem len_zero_pair : len ((0 : ℝ), (0 : ℝ)) = 0 := by
  unfold len
  norm_num

/-! ## Projectile (src/src/game/projectile.ts, the range-falloff variant)

Fields and defaults follow the class: radius 3, life 0, maxLife 4,
damage 12, startPos recorded at construction for range falloff. -/

structure Projectile where
  pos : Vec2
  vel : Vec2
  radius : ℝ
  life : ℝ
  maxLife : ℝ
  damage : ℝ
  ownerId : ℕ
  startPos : Vec2

/-- Constructor `new Projectile(pos, vel, owner)`: clones pos/vel, records
startPos, and takes the class defaults for the other fields. -/
def Projectile.create (pos vel : Vec2) (ownerId : ℕ) : Projectile :=
  { pos := pos, vel := vel, radius := 3, life := 0, maxLife := 4,
    damage := 12, ownerId := ownerId, startPos := pos }

/-- Distance travelled from the start position, as getDamage and alive
compute it. -/
noncomputable def Projectile.distanceFromStart (p : Projectile) : ℝ :=
  len (p.pos - p.startPos)

/-- Projectile.getDamage(): full damage within 600 units, linear decay
(decayProgress = (distance - 600) / (1200 - 600), multiplier
1.0 - 0.67 * decayProgress, Math.floor applied) between 600 and 1200, zero
at 1200 and beyond. -/
noncomputable def Projectile.getDamage (p : Projectile) : ℝ :=
  if 1200 ≤ p.distanceFromStart then 0
  else if p.distanceFromStart ≤ 600 then p.damage
  else (⌊p.damage * (1.0 - 0.67 * ((p.distanceFromStart - 600) / (1200 - 600)))⌋ : ℤ)

/-- Projectile.alive: life below maxLife AND distance from origin below
1200. -/
def Projectile.aliveProp (p : Projectile) : Prop :=
  p.life < p.maxLife ∧ p.distanceFromStart < 1200

/-- Concrete standard shot used to probe the falloff: fired from the origin,
currently 900 units downrange. -/
noncomputable def probeShot : Projectile :=
  { Projectile.create ((0 : ℝ), (0 : ℝ)) ((0 : ℝ), (0 : ℝ)) 0 with
    pos := ((900 : ℝ), (0 : ℝ)) }

theorem probeShot_distance : probeShot.distanceFromStart = 900 := by
  unfold probeShot Projectile.distanceFromStart Projectile.create len
  norm_num
  rw [show (810000 : ℝ) = 900 ^ 2 by norm_num, Real.sqrt_sq (by norm_num : (0 : ℝ) ≤ 900)]

/-- A standard shot resting at its origin (distance 0). -/
noncomputable def pointBlankShot : Projectile :=
  Projectile.create ((0 : ℝ), (0 : ℝ)) ((0 : ℝ), (0 : ℝ)) 0

theorem pointBlankShot_distance : pointBlankShot.distanceFromStart = 0 := by
  unfold pointBlankShot Projectile.distanceFromStart Projectile.create len
  norm_num

/-! ## Ship (src/src/game/ship.ts)

The kinematic body, weapon battery and sinking state of a vessel.  Cannons
keep a local offset, broadside side, per-mount reload duration and remaining
cooldown; the ship keeps per-side mount index lists, round-robin cursors and
inter-shot timers, exactly as the class fields. -/

inductive Side where
  | port
  | starboard
deriving DecidableEq

structure Cannon where
  offset : Vec2
  side : Side
  reloadTime : ℝ
  cooldown : ℝ

structure InputState where
  up : Bool
  down : Bool
  left : Bool
  right : Bool
  fire : Bool

def noInput : InputState :=
  { up := false, down := false, left := false, right := false, fire := false }

structure Ship where
  id : ℕ
  pos : Vec2
  vel : Vec2
  angle : ℝ
  angVel : ℝ
  rudder : ℝ
  maxHealth : ℝ
  health : ℝ
  isSinking : Bool
  sinkTimer : ℝ
  sinkDuration : ℝ
  maxSpeed : ℝ
  thrust : ℝ
  reverseThrust : ℝ
  turnAccel : ℝ
  rudderRate : ℝ
  linDrag : ℝ
  angDrag : ℝ
  shipLength : ℝ
  shipWidth : ℝ
  cannons : List Cannon
  portIndices : List ℕ
  starboardIndices : List ℕ
  nextPort : ℕ
  nextStarboard : ℕ
  fireTimerPort : ℝ
  fireTimerStarboard : ℝ
  interShotDelay : ℝ

noncomputable def Ship.forwardVec (s : Ship) : Vec2 :=
  (Real.cos s.angle, Real.sin s.angle)

noncomputable def Ship.rightVec (s : Ship) : Vec2 :=
  (Real.cos (s.angle + Real.pi / 2), Real.sin (s.angle + Real.pi / 2))

noncomputable def Ship.localToWorld (s : Ship) (local0 : Vec2) : Vec2 :=
  s.pos + rotated local0 s.angle

def Ship.takeDamage (s : Ship) (dmg : ℝ) : Ship :=
  { s with health := max 0 (s.health - dmg) }

def Ship.startSinking (s : Ship) : Ship :=
  if s.isSinking = false then { s with isSinking := true, sinkTimer := 0 } else s

def Ship.isFullySunkProp (s : Ship) : Prop :=
  s.isSinking = true ∧ s.sinkDuration ≤ s.sinkTimer

def Ship.getCollisionRadius (s : Ship) : ℝ :=
  max (s.shipLength * 0.35) (s.shipWidth * 0.6)

def Ship.getMass (s : Ship) : ℝ :=
  s.shipLength * s.shipWidth

/-- The per-side mount index list (the ternary at the top of tryFireSide). -/
def Ship.sideIndices (s : Ship) : Side → List ℕ
  | Side.port => s.portIndices
  | Side.starboard => s.starboardIndices

/-- The per-side inter-shot timer. -/
def Ship.sideTimer (s : Ship) : Side → ℝ
  | Side.port => s.fireTimerPort
  | Side.starboard => s.fireTimerStarboard

/-- The per-side round-robin cursor. -/
def Ship.sideNext (s : Ship) : Side → ℕ
  | Side.port => s.nextPort
  | Side.starboard => s.nextStarboard

/-- Out-of-range placeholder for list lookups; a well-formed ship never
reaches it (its cooldown 1 never reads as ready). -/
def defaultCannon : Cannon :=
  { offset := (0, 0), side := Side.port, reloadTime := 1, cooldown := 1 }

/-- The cooldown of mount `i` of the ship's cannon array. -/
def Ship.cooldownAt (s : Ship) (i : ℕ) : ℝ :=
  (s.cannons.getD i defaultCannon).cooldown

/-- The outward broadside normal of tryFireSide: the right vector for
starboard, its negation for port. -/
noncomputable def Ship.outwardVec (s : Ship) : Side → Vec2
  | Side.starboard => s.rightVec
  | Side.port => scale s.rightVec (-1)

/-- The per-side cursor write-back of tryFireSide. -/
def Ship.setSideNext (s : Ship) (side : Side) (n : ℕ) : Ship :=
  match side with
  | Side.port => { s with nextPort := n }
  | Side.starboard => { s with nextStarboard := n }

/-- The per-side inter-shot timer write-back of tryFireSide. -/
def Ship.setSideTimer (s : Ship) (side : Side) (t : ℝ) : Ship :=
  match side with
  | Side.port => { s with fireTimerPort := t }
  | Side.starboard => { s with fireTimerStarboard := t }

/-- Ship.tryFireSide: skip when the side has no mounts or its inter-shot
timer is still positive; otherwise scan the side's mounts from the
round-robin cursor, fire the first with cooldown ≤ 0 (muzzle velocity =
ship velocity + outward normal rotated by the random spread times 380,
muzzle position = mount offset in world space), reset that mount's cooldown
to its reload time, advance the cursor past it and restart the inter-shot
timer.  `rand` stands for the Math.random() draw of the spread. -/
noncomputable def Ship.tryFireSide (s : Ship) (side : Side) (rand : ℝ) :
    Ship × Option Projectile :=
  let indices := s.sideIndices side
  if indices.length = 0 then (s, none)
  else if 0 < s.sideTimer side then (s, none)
  else
    let next := s.sideNext side
    let count := indices.length
    match (List.range count).find?
        (fun i => decide (s.cooldownAt (indices.getD ((next + i) % count) 0) ≤ 0)) with
    | none => (s, none)
    | some i =>
      let idx := indices.getD ((next + i) % count) 0
      let c := s.cannons.getD idx defaultCannon
      let dir := rotated (s.outwardVec side) ((rand - 0.5) * 0.04)
      let vel := s.vel + scale dir 380
      let p := Projectile.create (s.localToWorld c.offset) vel s.id
      let cannons2 := s.cannons.set idx { c with cooldown := c.reloadTime }
      let next2 := (next + i + 1) % count
      ((({ s with cannons := cannons2 }).setSideNext side next2).setSideTimer
          side s.interShotDelay, some p)

/-- The unconditional per-tick cooldown and inter-shot timer decrements of
Ship.update. -/
def Ship.tickCooldowns (s : Ship) (dt : ℝ) : Ship :=
  { s with
    cannons := s.cannons.map (fun c => { c with cooldown := max 0 (c.cooldown - dt) }),
    fireTimerPort := max 0 (s.fireTimerPort - dt),
    fireTimerStarboard := max 0 (s.fireTimerStarboard - dt) }

/-- healthFrac clamped to [0, 1]. -/
noncomputable def Ship.healthFrac (s : Ship) : ℝ :=
  max 0 (min 1 (s.health / max 1 s.maxHealth))

/-- damageFactor: 1.0 at full health down to 0.5 at zero health. -/
noncomputable def Ship.damageFactor (s : Ship) : ℝ :=
  0.5 + 0.5 * s.healthFrac

/-- The two thrust branches of Ship.update. -/
noncomputable def Ship.velAfterThrust (s : Ship) (input : InputState) (dt : ℝ) : Vec2 :=
  let v1 := if input.up
    then s.vel + scale s.forwardVec (s.thrust * s.damageFactor * dt)
    else s.vel
  if input.down
    then v1 + scale s.forwardVec (-s.reverseThrust * s.damageFactor * dt)
    else v1

/-- The speed cap of Ship.update: rescale the whole vector down to maxSpeed
when its length exceeds maxSpeed. -/
noncomputable def Ship.capVel (s : Ship) (v : Vec2) : Vec2 :=
  if s.maxSpeed < len v then scale v (s.maxSpeed / max 1e-6 (len v)) else v

/-- The rudder smoothing of Ship.update: move the rudder toward the desired
setting at rudderRate per second. -/
noncomputable def Ship.newRudder (s : Ship) (input : InputState) (dt : ℝ) : ℝ :=
  let target := (if input.left then (-1 : ℝ) else 0) + (if input.right then (1 : ℝ) else 0)
  let desired := max (-1) (min 1 target)
  if s.rudder < desired then min desired (s.rudder + s.rudderRate * dt)
  else if desired < s.rudder then max desired (s.rudder - s.rudderRate * dt)
  else s.rudder

/-- The sinking branch at the top of Ship.update: a sinking ship advances
its sink timer. -/
def Ship.sinkAdjusted (s0 : Ship) (dt : ℝ) : Ship :=
  if s0.isSinking then { s0 with sinkTimer := s0.sinkTimer + dt } else s0

/-- The sinking branch's input override: a sinking ship ignores all
intents. -/
def Ship.effInput (s0 : Ship) (input0 : InputState) : InputState :=
  if s0.isSinking then noInput else input0

/-- Ship.update(dt, input, projectiles): sinking override, thrust, speed
cap, rudder and angular acceleration, drag, explicit-Euler integration,
cooldown decrements, then the two per-side fire attempts.  `randP`/`randS`
stand for the Math.random() spread draws of the port and starboard
attempts; the returned list holds the projectiles pushed this tick. -/
noncomputable def Ship.update (s0 : Ship) (dt : ℝ) (input0 : InputState)
    (randP randS : ℝ) : Ship × List Projectile :=
  let s := s0.sinkAdjusted dt
  let input := s0.effInput input0
  let vel2 := s.velAfterThrust input dt
  let vel3 := s.capVel vel2
  let rudder2 := s.newRudder input dt
  let speedFactor := 0.4 + 1.2 * min 1 (len vel3 / s.maxSpeed)
  let angVel1 := s.angVel + rudder2 * (s.turnAccel * s.damageFactor) * speedFactor * dt
  let vel4 := scale vel3 (1 / (1 + s.linDrag * dt))
  let angVel2 := angVel1 * (1 / (1 + s.angDrag * dt))
  let s2 := { s with
    vel := vel4, angVel := angVel2, rudder := rudder2,
    pos := s.pos + scale vel4 dt,
    angle := s.angle + angVel2 * dt }
  let s3 := s2.tickCooldowns dt
  if input.fire && !s3.isSinking then
    let r1 := s3.tryFireSide Side.port randP
    let r2 := r1.1.tryFireSide Side.starboard randS
    (r2.1, r1.2.toList ++ r2.2.toList)
  else (s3, [])

/-- A ship with the class's default stats (length 120, width 44, maxSpeed
180, thrust 50, reverseThrust 20, turnAccel 1, rudderRate 1.5, linDrag 0.4,
angDrag 2, interShotDelay 0.08), at rest with no cannons mounted. -/
noncomputable def testShip : Ship :=
  { id := 1, pos := ((0 : ℝ), (0 : ℝ)), vel := ((0 : ℝ), (0 : ℝ)),
    angle := -(Real.pi / 2), angVel := 0, rudder := 0,
    maxHealth := 100, health := 100, isSinking := false, sinkTimer := 0,
    sinkDuration := 10, maxSpeed := 180, thrust := 50, reverseThrust := 20,
    turnAccel := 1, rudderRate := 1.5, linDrag := 0.4, angDrag := 2,
    shipLength := 120, shipWidth := 44, cannons := [], portIndices := [],
    starboardIndices := [], nextPort := 0, nextStarboard := 0,
    fireTimerPort := 0, fireTimerStarboard := 0, interShotDelay := 0.08 }

/-- The default ship, sinking. -/
noncomputable def sinkingShip : Ship :=
  { testShip with isSinking := true }

/-! ## AI aggression state machine (src/unnamed/part_000, class AIShip)

The aggression bookkeeping of AIShip: the fields takeDamage and
updateAggressionState read and write.  Time stamps are the seconds
Date.now() / 1000 supplies; they and the other numbers are embedded over ℚ
(this part of the code does no square roots), so concrete runs evaluate by
decide.  The inherited Ship.takeDamage health clamp is inlined, as the
override calls super.takeDamage first. -/

structure AIShip where
  health : ℚ
  maxHealth : ℚ
  aggressive : Bool
  lastDamageTime : ℚ
  passiveTimeout : ℚ
  wanderTarget : Option (ℚ × ℚ)
  wanderTimer : ℚ
  travelMode : Bool
  travelTarget : Option (ℚ × ℚ)

/-- AIShip.takeDamage(dmg): super.takeDamage clamps health at 0; nonzero
damage makes the agent aggressive, stamps the damage time, and exits travel
mode. -/
def AIShip.takeDamage (s : AIShip) (dmg now : ℚ) : AIShip :=
  let s1 := { s with health := max 0 (s.health - dmg) }
  if 0 < dmg then
    let s2 := { s1 with aggressive := true, lastDamageTime := now }
    if s2.travelMode then { s2 with travelMode := false, travelTarget := none } else s2
  else s1

/-- AIShip.updateAggressionState(): an aggressive agent with a positive
passive timeout and a recorded damage time turns passive once
now - lastDamageTime reaches the timeout, clearing the damage time, the
wander timer and the wander target. -/
def AIShip.updateAggressionState (s : AIShip) (now : ℚ) : AIShip :=
  if s.aggressive = false then s
  else if s.passiveTimeout ≤ 0 then s
  else if s.lastDamageTime ≤ 0 then s
  else if s.passiveTimeout ≤ now - s.lastDamageTime then
    { s with aggressive := false, lastDamageTime := 0, wanderTimer := 0,
             wanderTarget := none }
  else s

/-- A passive agent in travel mode, about to take damage. -/
def passiveAgent : AIShip :=
  { health := 100, maxHealth := 100, aggressive := false, lastDamageTime := 0,
    passiveTimeout := 10, wanderTarget := some (1, 2), wanderTimer := 3,
    travelMode := true, travelTarget := some (500, 600) }

/-- An aggressive agent last damaged at time 5 with a 10-second passive
timeout. -/
def aggressiveAgent : AIShip :=
  { health := 80, maxHealth := 100, aggressive := true, lastDamageTime := 5,
    passiveTimeout := 10, wanderTarget := some (7, 8), wanderTimer := 4,
    travelMode := false, travelTarget := none }

/-! ## normalizeAngle (src/unnamed/part_000 and src/src/game/ai-ship.ts)

The two while loops of normalizeAngle, written as well-founded recursion:
first subtract 2π while the angle exceeds π, then add 2π while it is below
-π. -/

/-- First loop: while (a > Math.PI) a -= Math.PI * 2. -/
noncomputable def normLoop1 (a : ℝ) : ℝ :=
  if Real.pi < a then normLoop1 (a - Real.pi * 2) else a
termination_by (⌈(a - Real.pi) / (Real.pi * 2)⌉).toNat
decreasing_by
  rename_i h
  have hpi := Real.pi_pos
  have harg : (a - Real.pi * 2 - Real.pi) / (Real.pi * 2) =
      (a - Real.pi) / (Real.pi * 2) - ((1 : ℤ) : ℝ) := by
    push_cast
    field_simp
    ring
  rw [harg, Int.ceil_sub_int]
  have hr : (0 : ℝ) < (a - Real.pi) / (Real.pi * 2) := by
    apply div_pos (by linarith) (by linarith)
  have hc : 0 < ⌈(a - Real.pi) / (Real.pi * 2)⌉ := Int.ceil_pos.mpr hr
  exact (Int.toNat_lt_toNat hc).mpr (by omega)

/-- Second loop: while (a < -Math.PI) a += Math.PI * 2. -/
noncomputable def normLoop2 (a : ℝ) : ℝ :=
  if a < -Real.pi then normLoop2 (a + Real.pi * 2) else a
termination_by (⌈(-Real.pi - a) / (Real.pi * 2)⌉).toNat
decreasing_by
  rename_i h
  have hpi := Real.pi_pos
  have harg : (-Real.pi - (a + Real.pi * 2)) / (Real.pi * 2) =
      (-Real.pi - a) / (Real.pi * 2) - ((1 : ℤ) : ℝ) := by
    push_cast
    field_simp
    ring
  rw [harg, Int.ceil_sub_int]
  have hr : (0 : ℝ) < (-Real.pi - a) / (Real.pi * 2) := by
    apply div_pos (by linarith) (by linarith)
  have hc : 0 < ⌈(-Real.pi - a) / (Real.pi * 2)⌉ := Int.ceil_pos.mpr hr
  exact (Int.toNat_lt_toNat hc).mpr (by omega)

/-- normalizeAngle(a): the subtract loop, then the add loop. -/
noncomputable def normalizeAngle (a : ℝ) : ℝ :=
  normLoop2 (normLoop1 a)

/-! ## Discharge-attempt traces (for the round-robin broadside property)

`firedIndex` observes which mount tryFireSide would fire (the first ready
mount scanning from the cursor); `fireAttempts` replays a sequence of
discharge attempts, each preceded by the per-tick cooldown/timer decrements
of Ship.update with that attempt's elapsed time. -/

/-- The mount tryFireSide fires, if any: none when the side is empty, the
inter-shot timer is still positive, or no mount is ready. -/
noncomputable def Ship.firedIndex (s : Ship) (side : Side) : Option ℕ :=
  let indices := s.sideIndices side
  if indices.length = 0 then none
  else if 0 < s.sideTimer side then none
  else
    ((List.range indices.length).find?
        (fun i => decide (s.cooldownAt
          (indices.getD ((s.sideNext side + i) % indices.length) 0) ≤ 0))).map
      (fun i => indices.getD ((s.sideNext side + i) % indices.length) 0)

/-- Replay discharge attempts on one side: each attempt decrements
cooldowns and timers by its elapsed time (as Ship.update does every tick)
and then runs tryFireSide; the fired mount of each attempt is recorded. -/
noncomputable def Ship.fireAttempts (s : Ship) (side : Side) :
    List (ℝ × ℝ) → Ship × List (Option ℕ)
  | [] => (s, [])
  | (dt, r) :: rest =>
    let s1 := s.tickCooldowns dt
    let fired := s1.firedIndex side
    let s2 := (s1.tryFireSide side r).1
    let res := s2.fireAttempts side rest
    (res.1, fired :: res.2)

/-- The mount index sitting at the side's round-robin cursor (scan offset
i = 0 of tryFireSide). -/
def Ship.cursorMount (s : Ship) (side : Side) : ℕ :=
  (s.sideIndices side).getD (s.sideNext side % (s.sideIndices side).length) 0

/-- The cannon array after firing mount `idx`: that mount's cooldown is
reset to its own reload time. -/
def Ship.fireResultCannons (s : Ship) (idx : ℕ) : List Cannon :=
  s.cannons.set idx
    { s.cannons.getD idx defaultCannon with
      cooldown := (s.cannons.getD idx defaultCannon).reloadTime }

/-- A ship with one broadside of two ready mounts, used to instantiate the
round-robin property. -/
noncomputable def broadsideShip : Ship :=
  { testShip with
    cannons := [{ offset := ((0 : ℝ), (22 : ℝ)), side := Side.port, reloadTime := 2, cooldown := 0 },
                { offset := ((10 : ℝ), (22 : ℝ)), side := Side.port, reloadTime := 3, cooldown := 0 }],
    portIndices := [0, 1] }

/-! ## Collision resolver (src/unnamed/part_004, class CollisionSystem)

Pairwise ship-ship collision response (positional correction, impulse,
tangential friction, angular kick) and ramming damage keyed by the
unordered ship-id pair with a per-pair cooldown.  The cooldown Map<string,
number> keyed by "min|max" strings is embedded as a function from ordered
id pairs to optional remaining seconds. -/

structure CollisionConfig where
  restitution : ℝ
  friction : ℝ
  damageCooldown : ℝ

abbrev CooldownMap : Type := ℕ × ℕ → Option ℝ

/-- The unordered-pair key min|max. -/
def pairKey (a b : ℕ) : ℕ × ℕ := (min a b, max a b)

/-- Map.set key value. -/
def cdSet (cds : CooldownMap) (key : ℕ × ℕ) (v : ℝ) : CooldownMap :=
  fun k => if k = key then some v else cds k

/-- CollisionSystem.update(dt): decay every pair cooldown by dt and drop
the ones that reach zero. -/
noncomputable def CollisionSystem.update (cds : CooldownMap) (dt : ℝ) : CooldownMap :=
  fun k =>
    match cds k with
    | none => none
    | some c => if c - dt ≤ 0 then none else some (c - dt)

/-- CollisionSystem.applyRammingDamage: skip while the pair key is on
cooldown; otherwise classify bow hits by forward-vector · normal against
the 0.7 threshold, deal the (damageA, damageB) split, start sinking at
zero health, and set the pair cooldown. -/
noncomputable def CollisionSystem.applyRammingDamage (cfg : CollisionConfig)
    (cds : CooldownMap) (shipA shipB : Ship) (relativeSpeed nx ny : ℝ) :
    CooldownMap × Ship × Ship :=
  let key := pairKey shipA.id shipB.id
  if (cds key).isSome then (cds, shipA, shipB)
  else
    let dotA := shipA.forwardVec.1 * nx + shipA.forwardVec.2 * ny
    let dotB := shipB.forwardVec.1 * (-nx) + shipB.forwardVec.2 * (-ny)
    let shipABowHit : Bool := decide (0.7 < dotA)
    let shipBBowHit : Bool := decide (0.7 < dotB)
    let damages : ℝ × ℝ :=
      if shipABowHit ≠ shipBBowHit then
        let baseDamage := max 20 (relativeSpeed * 0.67)
        if shipABowHit then (baseDamage / 3, baseDamage)
        else (baseDamage, baseDamage / 3)
      else
        (relativeSpeed * 0.25, relativeSpeed * 0.25)
    let sA1 := shipA.takeDamage damages.1
    let sB1 := shipB.takeDamage damages.2
    let sA2 := if sA1.health ≤ 0 ∧ sA1.isSinking = false then sA1.startSinking else sA1
    let sB2 := if sB1.health ≤ 0 ∧ sB1.isSinking = false then sB1.startSinking else sB1
    (cdSet cds key cfg.damageCooldown, sA2, sB2)

open Classical in
/-- CollisionSystem.resolveShipPairCollision: skip fully sunk ghosts,
nudge exactly-coincident centers apart along x, test circle overlap,
separate the hulls in proportion to the other body's mass, apply the
normal impulse with restitution plus clamped tangential friction plus a
small angular kick when the hulls close on each other, then hand over to
the ramming-damage pass. -/
noncomputable def CollisionSystem.resolveShipPairCollision (cfg : CollisionConfig)
    (cds : CooldownMap) (shipA shipB : Ship) : CooldownMap × Ship × Ship :=
  if (shipA.isSinking = true ∧ shipA.isFullySunkProp) ∨
     (shipB.isSinking = true ∧ shipB.isFullySunkProp) then (cds, shipA, shipB)
  else
    let dx := shipB.pos.1 - shipA.pos.1
    let dy := shipB.pos.2 - shipA.pos.2
    let distanceSquared := dx * dx + dy * dy
    if distanceSquared ≤ 1e-6 then
      (cds, { shipA with pos := (shipA.pos.1 - 1, shipA.pos.2) },
            { shipB with pos := (shipB.pos.1 + 1, shipB.pos.2) })
    else
      let radiusSum := shipA.getCollisionRadius + shipB.getCollisionRadius
      if radiusSum * radiusSum ≤ distanceSquared then (cds, shipA, shipB)
      else
        let distance := Real.sqrt distanceSquared
        let normalX := dx / distance
        let normalY := dy / distance
        let penetration := radiusSum - distance
        let massA := shipA.getMass
        let massB := shipB.getMass
        let totalMass := massA + massB
        let correctionA := penetration * (massB / totalMass) * 0.5
        let correctionB := penetration * (massA / totalMass) * 0.5
        let posA := (shipA.pos.1 - normalX * correctionA,
                     shipA.pos.2 - normalY * correctionA)
        let posB := (shipB.pos.1 + normalX * correctionB,
                     shipB.pos.2 + normalY * correctionB)
        let relativeVelX := shipB.vel.1 - shipA.vel.1
        let relativeVelY := shipB.vel.2 - shipA.vel.2
        let relativeVelNormal := relativeVelX * normalX + relativeVelY * normalY
        if 0 ≤ relativeVelNormal then
          (cds, { shipA with pos := posA }, { shipB with pos := posB })
        else
          let impulse := -(1 + cfg.restitution) * relativeVelNormal /
            (1 / massA + 1 / massB)
          let impulseX := impulse * normalX
          let impulseY := impulse * normalY
          let tangentX := -normalY
          let tangentY := normalX
          let relativeTangent := relativeVelX * tangentX + relativeVelY * tangentY
          let frictionImpulse := max (-cfg.friction * impulse)
            (min (cfg.friction * impulse) (-relativeTangent / (1 / massA + 1 / massB)))
          let frictionX := frictionImpulse * tangentX
          let frictionY := frictionImpulse * tangentY
          let velA := (shipA.vel.1 - impulseX / massA - frictionX / massA,
                       shipA.vel.2 - impulseY / massA - frictionY / massA)
          let velB := (shipB.vel.1 + impulseX / massB + frictionX / massB,
                       shipB.vel.2 + impulseY / massB + frictionY / massB)
          CollisionSystem.applyRammingDamage cfg cds
            { shipA with pos := posA, vel := velA,
                         angVel := shipA.angVel - relativeTangent * 0.0008 }
            { shipB with pos := posB, vel := velB,
                         angVel := shipB.angVel + relativeTangent * 0.0008 }
            (Real.sqrt (relativeVelX * relativeVelX + relativeVelY * relativeVelY))
            normalX normalY

/-! ### Named intermediate quantities of resolveShipPairCollision

These name, verbatim, the let-bound quantities of the solver (distance
squared, unit normal, closing and tangential relative speeds, impulse,
friction, mass-weighted corrections, and the two post-impulse ships), so
the branch behaviour of the solver can be stated and compared across the
two argument orders. -/

noncomputable def distSqOf (A B : Ship) : ℝ :=
  (B.pos.1 - A.pos.1) * (B.pos.1 - A.pos.1) + (B.pos.2 - A.pos.2) * (B.pos.2 - A.pos.2)

noncomputable def nxOf (A B : Ship) : ℝ :=
  (B.pos.1 - A.pos.1) / Real.sqrt (distSqOf A B)

noncomputable def nyOf (A B : Ship) : ℝ :=
  (B.pos.2 - A.pos.2) / Real.sqrt (distSqOf A B)

/-- Position correction applied to the first argument (mass-weighted by
the second's mass). -/
noncomputable def corrOf (A B : Ship) : ℝ :=
  (A.getCollisionRadius + B.getCollisionRadius - Real.sqrt (distSqOf A B)) *
    (B.getMass / (A.getMass + B.getMass)) * 0.5

/-- Position correction applied to the second argument. -/
noncomputable def corrOf2 (A B : Ship) : ℝ :=
  (A.getCollisionRadius + B.getCollisionRadius - Real.sqrt (distSqOf A B)) *
    (A.getMass / (A.getMass + B.getMass)) * 0.5

/-- Relative velocity along the collision normal. -/
noncomputable def relNOf (A B : Ship) : ℝ :=
  (B.vel.1 - A.vel.1) * nxOf A B + (B.vel.2 - A.vel.2) * nyOf A B

/-- Relative velocity along the tangent (-normalY, normalX). -/
noncomputable def relTOf (A B : Ship) : ℝ :=
  (B.vel.1 - A.vel.1) * -(nyOf A B) + (B.vel.2 - A.vel.2) * nxOf A B

noncomputable def impulseOf (cfg : CollisionConfig) (A B : Ship) : ℝ :=
  -(1 + cfg.restitution) * relNOf A B / (1 / A.getMass + 1 / B.getMass)

noncomputable def frictionOf (cfg : CollisionConfig) (A B : Ship) : ℝ :=
  max (-cfg.friction * impulseOf cfg A B)
    (min (cfg.friction * impulseOf cfg A B)
      (-(relTOf A B) / (1 / A.getMass + 1 / B.getMass)))

noncomputable def relSpeedOf (A B : Ship) : ℝ :=
  Real.sqrt ((B.vel.1 - A.vel.1) * (B.vel.1 - A.vel.1) +
    (B.vel.2 - A.vel.2) * (B.vel.2 - A.vel.2))

/-- The first argument after position correction only (separating,
non-closing branch). -/
noncomputable def separatedFirst (A B : Ship) : Ship :=
  { A with pos := (A.pos.1 - nxOf A B * corrOf A B, A.pos.2 - nyOf A B * corrOf A B) }

/-- The second argument after position correction only. -/
noncomputable def separatedSecond (A B : Ship) : Ship :=
  { B with pos := (B.pos.1 + nxOf A B * corrOf2 A B, B.pos.2 + nyOf A B * corrOf2 A B) }

/-- The first argument after position correction, impulse, friction and
angular kick (closing branch), as handed to the ramming pass. -/
noncomputable def impulsedFirst (cfg : CollisionConfig) (A B : Ship) : Ship :=
  { A with
    pos := (A.pos.1 - nxOf A B * corrOf A B, A.pos.2 - nyOf A B * corrOf A B),
    vel := (A.vel.1 - impulseOf cfg A B * nxOf A B / A.getMass -
              frictionOf cfg A B * -(nyOf A B) / A.getMass,
            A.vel.2 - impulseOf cfg A B * nyOf A B / A.getMass -
              frictionOf cfg A B * nxOf A B / A.getMass),
    angVel := A.angVel - relTOf A B * 0.0008 }

/-- The second argument after position correction, impulse, friction and
angular kick. -/
noncomputable def impulsedSecond (cfg : CollisionConfig) (A B : Ship) : Ship :=
  { B with
    pos := (B.pos.1 + nxOf A B * corrOf2 A B, B.pos.2 + nyOf A B * corrOf2 A B),
    vel := (B.vel.1 + impulseOf cfg A B * nxOf A B / B.getMass +
              frictionOf cfg A B * -(nyOf A B) / B.getMass,
            B.vel.2 + impulseOf cfg A B * nyOf A B / B.getMass +
              frictionOf cfg A B * nxOf A B / B.getMass),
    angVel := B.angVel + relTOf A B * 0.0008 }

/-! ## Ramming traces (for the pair-cooldown property)

A trace interleaving CollisionSystem.update ticks with ramming attempts on
one fixed pair, as the twice-per-tick pairwise pass produces. -/

inductive RamOp where
  | tick (dt : ℝ)
  | ram (relativeSpeed nx ny : ℝ)

structure PairState where
  cds : CooldownMap
  shipA : Ship
  shipB : Ship

noncomputable def runRamOps (cfg : CollisionConfig) : PairState → List RamOp → PairState
  | st, [] => st
  | st, RamOp.tick dt :: rest =>
    runRamOps cfg { st with cds := CollisionSystem.update st.cds dt } rest
  | st, RamOp.ram sp nx ny :: rest =>
    let r := CollisionSystem.applyRammingDamage cfg st.cds st.shipA st.shipB sp nx ny
    runRamOps cfg { cds := r.1, shipA := r.2.1, shipB := r.2.2 } rest

/-- Total elapsed time of a trace's ticks. -/
def tickSum : List RamOp → ℝ
  | [] => 0
  | RamOp.tick dt :: rest => dt + tickSum rest
  | RamOp.ram _ _ _ :: rest => tickSum rest

/-- The empty cooldown map: no pair has rammed recently. -/
def emptyCooldowns : CooldownMap := fun _ => none

/-- A sample collision configuration. -/
def probeConfig : CollisionConfig :=
  { restitution := 0.4, friction := 0.3, damageCooldown := 2 }

/-- A second ship distinct from the default one. -/
noncomputable def otherShip : Ship :=
  { testShip with id := 2, pos := ((1 : ℝ), (0 : ℝ)), shipLength := 2, shipWidth := 1 }

/-- A small ship one unit to the right of the default one, closing on it
with a sideways velocity component (so the collision has a tangential
part). -/
noncomputable def rammerShip : Ship :=
  { testShip with
    id := 2,
    pos := ((1 : ℝ), (0 : ℝ)),
    vel := ((-10 : ℝ), (5 : ℝ)),
    shipLength := 2,
    shipWidth := 1 }

/-! ### Basic facts about the ship embedding -/

theorem scale_scale (v : Vec2) (a b : ℝ) : scale (scale v a) b = scale v (a * b) := by
  unfold scale
  simp [mul_assoc]

theorem Ship.tryFireSide_frame (s : Ship) (side : Side) (r : ℝ) :
    ((s.tryFireSide side r).1).vel = s.vel ∧
    ((s.tryFireSide side r).1).pos = s.pos ∧
    ((s.tryFireSide side r).1).angle = s.angle ∧
    ((s.tryFireSide side r).1).isSinking = s.isSinking ∧
    ((s.tryFireSide side r).1).sinkTimer = s.sinkTimer ∧
    ((s.tryFireSide side r).1).portIndices = s.portIndices ∧
    ((s.tryFireSide side r).1).starboardIndices = s.starboardIndices ∧
    ((s.tryFireSide side r).1).interShotDelay = s.interShotDelay ∧
    ((s.tryFireSide side r).1).cannons.length = s.cannons.length := by
  cases side <;>
    simp only [Ship.tryFireSide] <;>
    (repeat' split) <;>
    simp [Ship.setSideNext, Ship.setSideTimer, List.length_set]

theorem Ship.sinkAdjusted_frame (s : Ship) (dt : ℝ) :
    (s.sinkAdjusted dt).vel = s.vel ∧
    (s.sinkAdjusted dt).pos = s.pos ∧
    (s.sinkAdjusted dt).maxSpeed = s.maxSpeed ∧
    (s.sinkAdjusted dt).linDrag = s.linDrag ∧
    (s.sinkAdjusted dt).isSinking = s.isSinking := by
  unfold Ship.sinkAdjusted
  split <;> simp

/-- The capped velocity never exceeds maxSpeed in length (for a positive
maxSpeed). -/
theorem Ship.len_capVel_le (s : Ship) (v : Vec2) (h : 0 < s.maxSpeed) :
    len (s.capVel v) ≤ s.maxSpeed := by
  unfold Ship.capVel
  split
  case isTrue hlt =>
    rw [len_scale]
    have hv : 0 < len v := lt_trans h hlt
    have hmax : (0 : ℝ) < max 1e-6 (len v) := lt_of_lt_of_le hv (le_max_right _ _)
    rw [abs_of_pos (div_pos h hmax)]
    calc s.maxSpeed / max 1e-6 (len v) * len v
        = s.maxSpeed * (len v / max 1e-6 (len v)) := by ring
      _ ≤ s.maxSpeed * 1 := by
          gcongr
          exact div_le_one_of_le₀ (le_max_right _ _) (le_of_lt hmax)
      _ = s.maxSpeed := mul_one _
  case isFalse hge =>
    push_neg at hge
    exact hge

/-- The capping factor: the capped velocity is a scalar multiple of the
uncapped one, with a factor in (0, 1] whenever maxSpeed is positive. -/
theorem Ship.capVel_factor (s : Ship) (v : Vec2) (h : 0 < s.maxSpeed) :
    ∃ c : ℝ, 0 < c ∧ c ≤ 1 ∧ s.capVel v = scale v c := by
  unfold Ship.capVel
  split
  case isTrue hlt =>
    refine ⟨s.maxSpeed / max 1e-6 (len v), ?_, ?_, rfl⟩
    · have hv : 0 < len v := lt_trans h hlt
      exact div_pos h (lt_of_lt_of_le hv (le_max_right _ _))
    · have hv : 0 < len v := lt_trans h hlt
      have hmax : (0 : ℝ) < max 1e-6 (len v) := lt_of_lt_of_le hv (le_max_right _ _)
      apply div_le_one_of_le₀ _ (le_of_lt hmax)
      calc s.maxSpeed ≤ len v := le_of_lt hlt
        _ ≤ max 1e-6 (len v) := le_max_right _ _
  case isFalse hge =>
    refine ⟨1, one_pos, le_refl 1, ?_⟩
    unfold scale
    simp

/-- The velocity Ship.update leaves on the ship: thrust, then cap, then the
drag factor. -/
theorem Ship.update_vel (s0 : Ship) (dt : ℝ) (input0 : InputState) (randP randS : ℝ) :
    ((s0.update dt input0 randP randS).1).vel =
      scale ((s0.sinkAdjusted dt).capVel
          ((s0.sinkAdjusted dt).velAfterThrust (s0.effInput input0) dt))
        (1 / (1 + (s0.sinkAdjusted dt).linDrag * dt)) := by
  simp only [Ship.update]
  split
  · exact ((Ship.tryFireSide_frame _ _ _).1).trans ((Ship.tryFireSide_frame _ _ _).1)
  · rfl

/-- The position Ship.update leaves on the ship: explicit Euler with the
post-drag velocity. -/
theorem Ship.update_pos (s0 : Ship) (dt : ℝ) (input0 : InputState) (randP randS : ℝ) :
    ((s0.update dt input0 randP randS).1).pos =
      (s0.sinkAdjusted dt).pos +
        scale (((s0.update dt input0 randP randS).1).vel) dt := by
  rw [Ship.update_vel]
  simp only [Ship.update]
  split
  · exact ((Ship.tryFireSide_frame _ _ _).2.1).trans ((Ship.tryFireSide_frame _ _ _).2.1)
  · rfl

/-- Ship.update advances the sink timer of a sinking ship and nothing
else touches it. -/
theorem Ship.update_sinkTimer (s0 : Ship) (dt : ℝ) (input0 : InputState) (randP randS : ℝ) :
    ((s0.update dt input0 randP randS).1).sinkTimer = (s0.sinkAdjusted dt).sinkTimer := by
  simp only [Ship.update]
  split
  · exact ((Ship.tryFireSide_frame _ _ _).2.2.2.2.1).trans
      ((Ship.tryFireSide_frame _ _ _).2.2.2.2.1)
  · rfl

theorem Ship.effInput_sinking (s : Ship) (input : InputState) (hs : s.isSinking = true) :
    s.effInput input = noInput := by
  unfold Ship.effInput
  rw [hs]
  simp

theorem Ship.velAfterThrust_noInput (s : Ship) (dt : ℝ) :
    s.velAfterThrust noInput dt = s.vel := by
  unfold Ship.velAfterThrust
  simp [noInput]

theorem Ship.capVel_sinkAdjusted (s : Ship) (dt : ℝ) (v : Vec2) :
    (s.sinkAdjusted dt).capVel v = s.capVel v := by
  unfold Ship.sinkAdjusted Ship.capVel
  split <;> rfl

theorem Ship.velAfterThrust_sinkAdjusted (s : Ship) (dt dt2 : ℝ) (input : InputState) :
    (s.sinkAdjusted dt).velAfterThrust input dt2 = s.velAfterThrust input dt2 := by
  simp only [Ship.sinkAdjusted, Ship.velAfterThrust, Ship.forwardVec, Ship.damageFactor,
    Ship.healthFrac]
  (repeat' split) <;> rfl

/-- A sinking ship's update pushes no projectile. -/
theorem Ship.update_projectiles_sinking (s : Ship) (dt : ℝ) (input : InputState)
    (randP randS : ℝ) (hs : s.isSinking = true) :
    (s.update dt input randP randS).2 = [] := by
  simp only [Ship.update, Ship.effInput, hs]
  simp [noInput]

end PirateGame

open PirateGame

theorem floor_798 : (⌊(7.98 : ℝ)⌋ : ℤ) = 7 := by
  rw [Int.floor_eq_iff]
  norm_num

/-- C2 (counterexample): at distance 900 the standard shot with damage 12
deals 7, not the 8 the claim states: the code floors
12 * (1 - 0.67 * ((900 - 600) / 600)) = 7.98 down to 7. -/
theorem getDamage_at_900_is_7_not_8 :
    probeShot.getDamage = 7 ∧ probeShot.getDamage ≠ 8 := by
  have h : probeShot.getDamage = 7 := by
    unfold Projectile.getDamage
    rw [probeShot_distance]
    rw [if_neg (by norm_num), if_neg (by norm_num : ¬ ((900 : ℝ) ≤ 600))]
    rw [show probeShot.damage = 12 by rfl]
    rw [show (12 : ℝ) * (1.0 - 0.67 * (((900 : ℝ) - 600) / (1200 - 600))) = 7.98 by norm_num]
    rw [floor_798]
    norm_num
  exact ⟨h, by rw [h]; norm_num⟩

/-- C2 (amended): the standard projectile's damage is non-increasing in the
distance from its origin; with the default profile (damage 12, near 600,
far 1200) it deals 12 at distance 0, 7 at distance 900 (the code floors
7.98; the claim said 8), and 0 at any distance of at least 1200, where the
projectile is also no longer alive. -/
theorem projectile_damage_falloff (p q : Projectile)
    (hp : p.damage = 12) (hq : q.damage = 12)
    (hle : p.distanceFromStart ≤ q.distanceFromStart) :
    q.getDamage ≤ p.getDamage ∧
    (p.distanceFromStart = 0 → p.getDamage = 12) ∧
    (p.distanceFromStart = 900 → p.getDamage = 7) ∧
    (1200 ≤ p.distanceFromStart → p.getDamage = 0 ∧ ¬ p.aliveProp) := by
  refine ⟨?_, ?_, ?_, ?_⟩
  · unfold Projectile.getDamage
    rw [hp, hq]
    by_cases h1 : (1200 : ℝ) ≤ q.distanceFromStart
    · rw [if_pos h1]
      by_cases h2 : (1200 : ℝ) ≤ p.distanceFromStart
      · rw [if_pos h2]
      · rw [if_neg h2]
        by_cases h3 : p.distanceFromStart ≤ 600
        · rw [if_pos h3]; norm_num
        · rw [if_neg h3]
          push_neg at h2 h3
          have harg : (0 : ℝ) ≤
              (12 : ℝ) * (1.0 - 0.67 * ((p.distanceFromStart - 600) / (1200 - 600))) := by
            have hlt : (p.distanceFromStart - 600) / (1200 - 600) < 1 := by
              rw [div_lt_one (by norm_num)]; linarith
            nlinarith
          exact_mod_cast Int.floor_nonneg.mpr harg
    · rw [if_neg h1]
      push_neg at h1
      have h2 : ¬ (1200 : ℝ) ≤ p.distanceFromStart := by push_neg; linarith
      rw [if_neg h2]
      by_cases h3 : q.distanceFromStart ≤ 600
      · rw [if_pos h3, if_pos (le_trans hle h3)]
      · rw [if_neg h3]
        push_neg at h3
        by_cases h4 : p.distanceFromStart ≤ 600
        · rw [if_pos h4]
          have hnn : (0 : ℝ) ≤ (q.distanceFromStart - 600) / (1200 - 600) := by
            apply div_nonneg <;> linarith
          calc ((⌊(12 : ℝ) * (1.0 - 0.67 * ((q.distanceFromStart - 600) / (1200 - 600)))⌋ : ℤ) : ℝ)
              ≤ (12 : ℝ) * (1.0 - 0.67 * ((q.distanceFromStart - 600) / (1200 - 600))) :=
                Int.floor_le _
            _ ≤ 12 := by nlinarith
        · rw [if_neg h4]
          have hx : (p.distanceFromStart - 600) / (1200 - 600) ≤
              (q.distanceFromStart - 600) / (1200 - 600) := by
            gcongr
          have hmono : (12 : ℝ) * (1.0 - 0.67 * ((q.distanceFromStart - 600) / (1200 - 600))) ≤
              (12 : ℝ) * (1.0 - 0.67 * ((p.distanceFromStart - 600) / (1200 - 600))) := by
            nlinarith
          exact_mod_cast Int.floor_mono hmono
  · intro h0
    unfold Projectile.getDamage
    rw [hp, h0]
    rw [if_neg (by norm_num), if_pos (by norm_num : (0 : ℝ) ≤ 600)]
  · intro h900
    unfold Projectile.getDamage
    rw [hp, h900]
    rw [if_neg (by norm_num), if_neg (by norm_num : ¬ ((900 : ℝ) ≤ 600))]
    rw [show (12 : ℝ) * (1.0 - 0.67 * (((900 : ℝ) - 600) / (1200 - 600))) = 7.98 by norm_num]
    rw [floor_798]
    norm_num
  · intro h1200
    constructor
    · unfold Projectile.getDamage
      rw [if_pos h1200]
    · intro hal
      exact absurd hal.2 (not_lt.mpr h1200)

/-- C2 (witness): the amended falloff theorem instantiated at two copies of
a point-blank standard shot. -/
theorem projectile_damage_falloff_witness :
    pointBlankShot.getDamage ≤ pointBlankShot.getDamage ∧
    (pointBlankShot.distanceFromStart = 0 → pointBlankShot.getDamage = 12) ∧
    (pointBlankShot.distanceFromStart = 900 → pointBlankShot.getDamage = 7) ∧
    (1200 ≤ pointBlankShot.distanceFromStart →
      pointBlankShot.getDamage = 0 ∧ ¬ pointBlankShot.aliveProp) :=
  projectile_damage_falloff pointBlankShot pointBlankShot rfl rfl le_rfl

/-- C1: for every ship, nonnegative dt, control intent and initial
velocity, the speed after Ship.update is at most maxSpeed + eps (indeed at
most maxSpeed): thrust is applied first, then the whole velocity vector is
rescaled (the final velocity is a positive scalar multiple of the
post-thrust velocity, not a per-axis clamp) by a combined cap-and-drag
factor that never exceeds 1. -/
theorem ship_speed_hard_capped (s : Ship) (dt : ℝ) (input : InputState)
    (randP randS eps : ℝ) (hdt : 0 ≤ dt) (hms : 0 < s.maxSpeed)
    (hdrag : 0 ≤ s.linDrag) (heps : 0 ≤ eps) :
    len ((s.update dt input randP randS).1.vel) ≤ s.maxSpeed + eps ∧
    ∃ c : ℝ, 0 < c ∧ c ≤ 1 ∧
      (s.update dt input randP randS).1.vel =
        scale ((s.sinkAdjusted dt).velAfterThrust (s.effInput input) dt) c := by
  have hframe := Ship.sinkAdjusted_frame s dt
  have hms' : 0 < (s.sinkAdjusted dt).maxSpeed := by rw [hframe.2.2.1]; exact hms
  have hdrag' : (s.sinkAdjusted dt).linDrag = s.linDrag := hframe.2.2.2.1
  have hden : (0 : ℝ) < 1 + s.linDrag * dt := by
    have : (0 : ℝ) ≤ s.linDrag * dt := mul_nonneg hdrag hdt
    linarith
  have hfac0 : (0 : ℝ) < 1 / (1 + s.linDrag * dt) := by positivity
  have hfac1 : 1 / (1 + s.linDrag * dt) ≤ 1 := by
    rw [div_le_one hden]
    have : (0 : ℝ) ≤ s.linDrag * dt := mul_nonneg hdrag hdt
    linarith
  have hvel := Ship.update_vel s dt input randP randS
  constructor
  · rw [hvel, hdrag', len_scale]
    have hcap : len ((s.sinkAdjusted dt).capVel
        ((s.sinkAdjusted dt).velAfterThrust (s.effInput input) dt)) ≤ s.maxSpeed := by
      rw [← hframe.2.2.1]
      exact Ship.len_capVel_le _ _ hms'
    calc |1 / (1 + s.linDrag * dt)| *
        len ((s.sinkAdjusted dt).capVel
          ((s.sinkAdjusted dt).velAfterThrust (s.effInput input) dt))
        ≤ 1 * s.maxSpeed := by
          apply mul_le_mul _ hcap (len_nonneg _) zero_le_one
          rw [abs_of_pos hfac0]
          exact hfac1
      _ = s.maxSpeed := one_mul _
      _ ≤ s.maxSpeed + eps := by linarith
  · obtain ⟨c, hc0, hc1, hceq⟩ :=
      Ship.capVel_factor (s.sinkAdjusted dt)
        ((s.sinkAdjusted dt).velAfterThrust (s.effInput input) dt) hms'
    refine ⟨c * (1 / (1 + s.linDrag * dt)), mul_pos hc0 hfac0, ?_, ?_⟩
    · calc c * (1 / (1 + s.linDrag * dt)) ≤ 1 * 1 :=
          mul_le_mul hc1 hfac1 (le_of_lt hfac0) zero_le_one
        _ = 1 := one_mul 1
    · rw [hvel, hdrag', hceq, scale_scale]

/-- C1 (witness): the bound instantiated at the default ship, dt = 0, no
input, eps = 0. -/
theorem ship_speed_hard_capped_witness :
    len ((testShip.update 0 noInput 0 0).1.vel) ≤ testShip.maxSpeed + 0 ∧
    ∃ c : ℝ, 0 < c ∧ c ≤ 1 ∧
      (testShip.update 0 noInput 0 0).1.vel =
        scale ((testShip.sinkAdjusted 0).velAfterThrust (testShip.effInput noInput) 0) c :=
  ship_speed_hard_capped testShip 0 noInput 0 0 0 le_rfl
    (by norm_num [testShip]) (by norm_num [testShip]) le_rfl

/-- C5: a sinking vessel's update ignores the control intent entirely (the
result does not depend on the intent or on the random spread draws), pushes
no projectile, and still integrates drag and momentum: the velocity is the
(capped) previous velocity times 1 / (1 + linDrag * dt) — exactly
scale vel (1 / (1 + linDrag * dt)) whenever the speed is within maxSpeed —
the position advances by the new velocity times dt, and the sink timer
advances by dt, so the vessel coasts instead of freezing. -/
theorem sinking_ship_ignores_intents (s : Ship) (dt : ℝ) (i1 i2 : InputState)
    (r1 r2 r3 r4 : ℝ) (hs : s.isSinking = true) :
    s.update dt i1 r1 r2 = s.update dt i2 r3 r4 ∧
    (s.update dt i1 r1 r2).2 = [] ∧
    (s.update dt i1 r1 r2).1.vel = scale (s.capVel s.vel) (1 / (1 + s.linDrag * dt)) ∧
    (s.update dt i1 r1 r2).1.pos = s.pos + scale ((s.update dt i1 r1 r2).1.vel) dt ∧
    (s.update dt i1 r1 r2).1.sinkTimer = s.sinkTimer + dt ∧
    (len s.vel ≤ s.maxSpeed →
      (s.update dt i1 r1 r2).1.vel = scale s.vel (1 / (1 + s.linDrag * dt))) := by
  have hframe := Ship.sinkAdjusted_frame s dt
  have hvel : (s.update dt i1 r1 r2).1.vel =
      scale (s.capVel s.vel) (1 / (1 + s.linDrag * dt)) := by
    rw [Ship.update_vel, Ship.effInput_sinking s i1 hs, Ship.velAfterThrust_sinkAdjusted,
      Ship.velAfterThrust_noInput, Ship.capVel_sinkAdjusted, hframe.2.2.2.1]
  refine ⟨?_, Ship.update_projectiles_sinking s dt i1 r1 r2 hs, hvel, ?_, ?_, ?_⟩
  · simp only [Ship.update, Ship.effInput, hs]
    simp [noInput]
  · rw [Ship.update_pos, hframe.2.1]
  · rw [Ship.update_sinkTimer]
    unfold Ship.sinkAdjusted
    rw [hs]
    simp
  · intro hle
    rw [hvel]
    unfold Ship.capVel
    rw [if_neg (not_lt.mpr hle)]

/-- C5 (witness): the no-op property instantiated at the sinking default
ship with two different intents. -/
theorem sinking_ship_ignores_intents_witness :
    sinkingShip.update 1 noInput 0 0 =
      sinkingShip.update 1 { noInput with up := true, fire := true } 2 3 ∧
    (sinkingShip.update 1 noInput 0 0).2 = [] ∧
    (sinkingShip.update 1 noInput 0 0).1.vel =
      scale (sinkingShip.capVel sinkingShip.vel) (1 / (1 + sinkingShip.linDrag * 1)) ∧
    (sinkingShip.update 1 noInput 0 0).1.pos =
      sinkingShip.pos + scale ((sinkingShip.update 1 noInput 0 0).1.vel) 1 ∧
    (sinkingShip.update 1 noInput 0 0).1.sinkTimer = sinkingShip.sinkTimer + 1 ∧
    (len sinkingShip.vel ≤ sinkingShip.maxSpeed →
      (sinkingShip.update 1 noInput 0 0).1.vel =
        scale sinkingShip.vel (1 / (1 + sinkingShip.linDrag * 1))) :=
  sinking_ship_ignores_intents sinkingShip 1 noInput
    { noInput with up := true, fire := true } 0 0 2 3 rfl

/-- C10: startSinking is idempotent — on a vessel already sinking it
changes nothing, so the sink countdown is never restarted by further kill
events. -/
theorem startSinking_idempotent (s : Ship) (h : s.isSinking = true) :
    s.startSinking = s := by
  unfold Ship.startSinking
  rw [h]
  simp

/-- C10 (witness): idempotence at the sinking default ship. -/
theorem startSinking_idempotent_witness : sinkingShip.startSinking = sinkingShip :=
  startSinking_idempotent sinkingShip rfl

/-- C3: nonzero damage makes a passive agent aggressive the same call and
cancels travel mode (clearing the travel target — the state invariant that a
cleared travel mode carries no stale target is assumed); an aggressive agent
whose elapsed time since the last damage reaches its positive passive
timeout becomes passive in updateAggressionState, clearing the wander
target and zeroing the wander timer. -/
theorem ai_aggression_state_machine (s a : AIShip) (dmg now now2 : ℚ)
    (_hpassive : s.aggressive = false) (hdmg : 0 < dmg)
    (hinv : s.travelMode = false → s.travelTarget = none)
    (hagg : a.aggressive = true) (hpt : 0 < a.passiveTimeout)
    (hldt : 0 < a.lastDamageTime)
    (helapsed : a.passiveTimeout ≤ now2 - a.lastDamageTime) :
    ((s.takeDamage dmg now).aggressive = true ∧
     (s.takeDamage dmg now).travelMode = false ∧
     (s.takeDamage dmg now).travelTarget = none) ∧
    ((a.updateAggressionState now2).aggressive = false ∧
     (a.updateAggressionState now2).wanderTarget = none ∧
     (a.updateAggressionState now2).wanderTimer = 0) := by
  constructor
  · unfold AIShip.takeDamage
    rw [if_pos hdmg]
    by_cases ht : s.travelMode = true
    · simp only [ht]
      simp
    · simp only [Bool.not_eq_true] at ht
      simp only [ht]
      simp [hinv ht]
  · unfold AIShip.updateAggressionState
    rw [if_neg (by rw [hagg]; simp), if_neg (not_le.mpr hpt), if_neg (not_le.mpr hldt),
      if_pos helapsed]
    exact ⟨rfl, rfl, rfl⟩

/-- C3 (witness): the state machine at a concrete passive travelling agent
damaged at time 7, and a concrete aggressive agent (last damage at 5,
timeout 10) updated at time 15. -/
theorem ai_aggression_state_machine_witness :
    ((passiveAgent.takeDamage 5 7).aggressive = true ∧
     (passiveAgent.takeDamage 5 7).travelMode = false ∧
     (passiveAgent.takeDamage 5 7).travelTarget = none) ∧
    ((aggressiveAgent.updateAggressionState 15).aggressive = false ∧
     (aggressiveAgent.updateAggressionState 15).wanderTarget = none ∧
     (aggressiveAgent.updateAggressionState 15).wanderTimer = 0) :=
  ai_aggression_state_machine passiveAgent aggressiveAgent 5 7 15 rfl (by norm_num)
    (by intro h; exact absurd h (by decide)) rfl (by norm_num [aggressiveAgent])
    (by norm_num [aggressiveAgent]) (by norm_num [aggressiveAgent])

theorem normLoop1_le_pi (a : ℝ) : normLoop1 a ≤ Real.pi := by
  induction a using normLoop1.induct with
  | case1 a h ih =>
    rw [normLoop1, if_pos h]
    exact ih
  | case2 a h =>
    rw [normLoop1, if_neg h]
    exact not_lt.mp h

theorem normLoop2_range (a : ℝ) (ha : a ≤ Real.pi) :
    -Real.pi ≤ normLoop2 a ∧ normLoop2 a ≤ Real.pi := by
  induction a using normLoop2.induct with
  | case1 a h ih =>
    rw [normLoop2, if_pos h]
    have hpi := Real.pi_pos
    exact ih (by linarith)
  | case2 a h =>
    rw [normLoop2, if_neg h]
    exact ⟨not_lt.mp h, ha⟩

/-- C9 (counterexample): normalizeAngle(-π) returns -π itself, which is not
strictly greater than -π, so the claimed half-open interval (-π, π] is
wrong at x = -π. -/
theorem normalizeAngle_at_neg_pi :
    normalizeAngle (-Real.pi) = -Real.pi ∧
    ¬ (-Real.pi < normalizeAngle (-Real.pi)) := by
  have hpi := Real.pi_pos
  have h1 : normLoop1 (-Real.pi) = -Real.pi := by
    rw [normLoop1, if_neg (by push_neg; linarith)]
  have h2 : normLoop2 (-Real.pi) = -Real.pi := by
    rw [normLoop2, if_neg (lt_irrefl _)]
  have h : normalizeAngle (-Real.pi) = -Real.pi := by
    unfold normalizeAngle
    rw [h1, h2]
  exact ⟨h, by rw [h]; exact lt_irrefl _⟩

/-- C9 (amended): normalizeAngle always lands in the closed interval
[-π, π]; the lower endpoint is attained (at x = -π), so the interval cannot
be sharpened to the half-open (-π, π]. -/
theorem normalizeAngle_range (x : ℝ) :
    -Real.pi ≤ normalizeAngle x ∧ normalizeAngle x ≤ Real.pi :=
  normLoop2_range (normLoop1 x) (normLoop1_le_pi x)

/-! ### Round-robin broadside (C4) -/

theorem Ship.tickCooldowns_obs (s : Ship) (dt : ℝ) (side : Side) :
    (s.tickCooldowns dt).sideIndices side = s.sideIndices side ∧
    (s.tickCooldowns dt).sideNext side = s.sideNext side ∧
    (s.tickCooldowns dt).sideTimer side = max 0 (s.sideTimer side - dt) ∧
    (s.tickCooldowns dt).interShotDelay = s.interShotDelay ∧
    (s.tickCooldowns dt).cannons.length = s.cannons.length := by
  cases side <;>
    simp [Ship.tickCooldowns, Ship.sideIndices, Ship.sideNext, Ship.sideTimer]

theorem Ship.tickCooldowns_cooldownAt (s : Ship) (dt : ℝ) (i : ℕ)
    (h : i < s.cannons.length) :
    (s.tickCooldowns dt).cooldownAt i = max 0 (s.cooldownAt i - dt) := by
  unfold Ship.tickCooldowns Ship.cooldownAt
  simp only [List.getD_eq_getElem?_getD, List.getElem?_map,
    List.getElem?_eq_getElem h]
  rfl

theorem Ship.setSides_obs (s : Ship) (side : Side) (n : ℕ) (t : ℝ) :
    ((s.setSideNext side n).setSideTimer side t).sideIndices side = s.sideIndices side ∧
    ((s.setSideNext side n).setSideTimer side t).sideNext side = n ∧
    ((s.setSideNext side n).setSideTimer side t).sideTimer side = t ∧
    ((s.setSideNext side n).setSideTimer side t).cannons = s.cannons ∧
    ((s.setSideNext side n).setSideTimer side t).interShotDelay = s.interShotDelay := by
  cases side <;>
    simp [Ship.setSideNext, Ship.setSideTimer, Ship.sideIndices, Ship.sideNext,
      Ship.sideTimer]

/-- When a side is nonempty, its timer has run out, and the mount at the
cursor position is ready, tryFireSide fires exactly that mount: it resets
its cooldown to its own reload time, advances the cursor one past it and
restarts the inter-shot timer; firedIndex reports it. -/
theorem Ship.tryFireSide_fires (s : Ship) (side : Side) (r : ℝ)
    (hne : ¬ (s.sideIndices side).length = 0)
    (htimer : ¬ 0 < s.sideTimer side)
    (hc : s.cooldownAt (s.cursorMount side) ≤ 0) :
    s.firedIndex side = some (s.cursorMount side) ∧
    ((s.tryFireSide side r).1).cannons = s.fireResultCannons (s.cursorMount side) ∧
    ((s.tryFireSide side r).1).sideNext side =
      (s.sideNext side + 1) % (s.sideIndices side).length ∧
    ((s.tryFireSide side r).1).sideTimer side = s.interShotDelay ∧
    (s.tryFireSide side r).2.isSome = true := by
  have hfind : (List.range (s.sideIndices side).length).find?
      (fun i => decide (s.cooldownAt ((s.sideIndices side).getD
        ((s.sideNext side + i) % (s.sideIndices side).length) 0) ≤ 0)) = some 0 := by
    obtain ⟨m, hm⟩ := Nat.exists_eq_succ_of_ne_zero hne
    have hr : List.range (s.sideIndices side).length =
        0 :: List.map Nat.succ (List.range m) := by
      rw [hm, List.range_succ_eq_map]
    rw [hr]
    apply List.find?_cons_of_pos
    simp only [Nat.add_zero]
    exact decide_eq_true hc
  refine ⟨?_, ?_⟩
  · simp only [Ship.firedIndex]
    rw [if_neg hne, if_neg htimer, hfind]
    simp [Ship.cursorMount]
  · simp only [Ship.tryFireSide]
    rw [if_neg hne, if_neg htimer, hfind]
    simp only [Nat.add_zero, Nat.zero_add]
    obtain ⟨h1, h2, h3, h4, h5⟩ := Ship.setSides_obs
      { s with cannons := s.fireResultCannons (s.cursorMount side) }
      side ((s.sideNext side + 1) % (s.sideIndices side).length) s.interShotDelay
    exact ⟨h4, h2, h3, rfl⟩

theorem tryFireSide_preserves_sideIndices (s : Ship) (side side2 : Side) (r : ℝ) :
    ((s.tryFireSide side r).1).sideIndices side2 = s.sideIndices side2 := by
  cases side2 <;>
    simp only [Ship.sideIndices] <;>
    [exact (Ship.tryFireSide_frame s side r).2.2.2.2.2.1;
     exact (Ship.tryFireSide_frame s side r).2.2.2.2.2.2.1]

theorem tryFireSide_preserves_interShotDelay (s : Ship) (side : Side) (r : ℝ) :
    ((s.tryFireSide side r).1).interShotDelay = s.interShotDelay :=
  (Ship.tryFireSide_frame s side r).2.2.2.2.2.2.2.1

/-- Distinct scan offsets within one cycle land on distinct cursor
positions. -/
theorem cycle_pos_ne (c j k N : ℕ) (hkj : k < j) (hjk : j - k < N) :
    (c + j) % N ≠ (c + k) % N := by
  intro h
  have h2 : j ≡ k [MOD N] := Nat.ModEq.add_left_cancel' c h
  have h4 : N ∣ j - k := (Nat.modEq_iff_dvd' (le_of_lt hkj)).mp h2.symm
  have h5 : N ≤ j - k := Nat.le_of_dvd (by omega) h4
  omega

theorem getD_set_ne_cannon (l : List Cannon) (i j : ℕ) (a : Cannon) (h : i ≠ j) :
    (l.set i a).getD j defaultCannon = l.getD j defaultCannon := by
  simp [List.getD_eq_getElem?_getD, List.getElem?_set_ne h]

theorem getD_mem_of_lt (l : List ℕ) (p : ℕ) (hp : p < l.length) : l.getD p 0 ∈ l := by
  rw [List.getD_eq_getElem l 0 hp]
  exact List.getElem_mem hp

theorem nodup_getD_ne (l : List ℕ) (hnd : l.Nodup) (p q : ℕ)
    (hp : p < l.length) (hq : q < l.length) (hpq : p ≠ q) :
    l.getD p 0 ≠ l.getD q 0 := by
  rw [List.getD_eq_getElem l 0 hp, List.getD_eq_getElem l 0 hq]
  intro h
  exact hpq (hnd.getElem_inj_iff.mp h)

/-- The cursor-order scan of a whole cycle reads the side list as a
rotation. -/
theorem range_map_getD_rotate (l : List ℕ) (n : ℕ) :
    (List.range l.length).map (fun j => l.getD ((n + j) % l.length) 0) = l.rotate n := by
  apply List.ext_getElem
  · simp
  · intro i h1 h2
    have hN : 0 < l.length := by
      simp at h1
      omega
    have hmod : (n + i) % l.length < l.length := Nat.mod_lt _ hN
    simp only [List.getElem_map, List.getElem_range]
    rw [List.getD_eq_getElem l 0 hmod, List.getElem_rotate]
    congr 2
    exact Nat.add_comm n i

/-- The walking-broadside invariant: starting at cursor congruent to
c0 + k with all not-yet-fired cycle positions ready, a run of attempts
(each separated by at least the inter-shot delay) fires exactly the cursor
cycle in order and leaves the cursor one past the last fired mount. -/
theorem Ship.fireAttempts_walk (side : Side) (dts : List (ℝ × ℝ)) :
    ∀ (s : Ship) (c0 k : ℕ),
    dts.length + k = (s.sideIndices side).length →
    (s.sideIndices side).Nodup →
    (∀ i ∈ s.sideIndices side, i < s.cannons.length) →
    s.sideNext side % (s.sideIndices side).length =
      (c0 + k) % (s.sideIndices side).length →
    (∀ j, k ≤ j → j < (s.sideIndices side).length →
      s.cooldownAt ((s.sideIndices side).getD
        ((c0 + j) % (s.sideIndices side).length) 0) ≤ 0) →
    s.sideTimer side ≤ s.interShotDelay →
    0 ≤ s.interShotDelay →
    (∀ p ∈ dts, s.interShotDelay ≤ p.1) →
    (s.fireAttempts side dts).2 =
      (List.range dts.length).map
        (fun j => some ((s.sideIndices side).getD
          ((c0 + k + j) % (s.sideIndices side).length) 0)) ∧
    (dts ≠ [] → ((s.fireAttempts side dts).1).sideNext side =
      (c0 + k + dts.length) % (s.sideIndices side).length) := by
  induction dts with
  | nil =>
    intro s c0 k _ _ _ _ _ _ _ _
    exact ⟨by simp [Ship.fireAttempts], fun h => absurd rfl h⟩
  | cons p rest ih =>
    obtain ⟨dt, r⟩ := p
    intro s c0 k hlen hnodup hvalid hnext hcool htimer hdelay hdts
    simp only [List.length_cons] at hlen
    have hkN : k < (s.sideIndices side).length := by omega
    have hN0 : 0 < (s.sideIndices side).length := by omega
    have obs := Ship.tickCooldowns_obs s dt side
    have hdt0 : s.interShotDelay ≤ dt := hdts (dt, r) (List.mem_cons_self _ _)
    have hdtnn : (0 : ℝ) ≤ dt := le_trans hdelay hdt0
    -- the state after this attempt's decrements
    have hne1 : ¬ ((s.tickCooldowns dt).sideIndices side).length = 0 := by
      rw [obs.1]; omega
    have htimer1 : ¬ 0 < (s.tickCooldowns dt).sideTimer side := by
      rw [obs.2.2.1]
      push_neg
      exact max_le le_rfl (by linarith)
    have hposk : (c0 + k) % (s.sideIndices side).length < (s.sideIndices side).length :=
      Nat.mod_lt _ hN0
    have hcm : (s.tickCooldowns dt).cursorMount side =
        (s.sideIndices side).getD ((c0 + k) % (s.sideIndices side).length) 0 := by
      unfold Ship.cursorMount
      rw [obs.1, obs.2.1, hnext]
    have hmemk : (s.sideIndices side).getD ((c0 + k) % (s.sideIndices side).length) 0 ∈
        s.sideIndices side := getD_mem_of_lt _ _ hposk
    have hvk : (s.sideIndices side).getD ((c0 + k) % (s.sideIndices side).length) 0 <
        s.cannons.length := hvalid _ hmemk
    have hc1 : (s.tickCooldowns dt).cooldownAt
        ((s.tickCooldowns dt).cursorMount side) ≤ 0 := by
      rw [hcm, Ship.tickCooldowns_cooldownAt s dt _ hvk]
      exact max_le le_rfl (by linarith [hcool k le_rfl hkN])
    have fires := Ship.tryFireSide_fires (s.tickCooldowns dt) side r hne1 htimer1 hc1
    -- shorthand for the post-fire state
    have hind2 : (((s.tickCooldowns dt).tryFireSide side r).1).sideIndices side =
        s.sideIndices side := by
      rw [tryFireSide_preserves_sideIndices, obs.1]
    have hdel2 : (((s.tickCooldowns dt).tryFireSide side r).1).interShotDelay =
        s.interShotDelay := by
      rw [tryFireSide_preserves_interShotDelay, obs.2.2.2.1]
    have hcannons2 : (((s.tickCooldowns dt).tryFireSide side r).1).cannons =
        (s.tickCooldowns dt).fireResultCannons ((s.tickCooldowns dt).cursorMount side) :=
      fires.2.1
    have hclen2 : (((s.tickCooldowns dt).tryFireSide side r).1).cannons.length =
        s.cannons.length := by
      rw [hcannons2]
      unfold Ship.fireResultCannons
      rw [List.length_set, obs.2.2.2.2]
    have hnext2 : (((s.tickCooldowns dt).tryFireSide side r).1).sideNext side %
        (s.sideIndices side).length =
        (c0 + (k + 1)) % (s.sideIndices side).length := by
      rw [fires.2.2.1, obs.2.1, obs.1]
      rw [Nat.mod_mod_of_dvd _ dvd_rfl]
      have hme : Nat.ModEq (s.sideIndices side).length (s.sideNext side) (c0 + k) := hnext
      exact hme.add_right 1
    have harg := ih (((s.tickCooldowns dt).tryFireSide side r).1) c0 (k + 1)
      (by rw [hind2]; omega)
      (by rw [hind2]; exact hnodup)
      (by rw [hind2, hclen2]; exact hvalid)
      (by rw [hind2]; exact hnext2)
      (by
        rw [hind2]
        intro j hj1 hj2
        have hposj : (c0 + j) % (s.sideIndices side).length <
            (s.sideIndices side).length := Nat.mod_lt _ hN0
        have hne : (s.tickCooldowns dt).cursorMount side ≠
            (s.sideIndices side).getD ((c0 + j) % (s.sideIndices side).length) 0 := by
          rw [hcm]
          exact nodup_getD_ne _ hnodup _ _ hposk hposj
            (Ne.symm (cycle_pos_ne c0 j k (s.sideIndices side).length
              (by omega) (by omega)))
        unfold Ship.cooldownAt
        rw [hcannons2]
        unfold Ship.fireResultCannons
        rw [getD_set_ne_cannon _ _ _ _ hne]
        have hvj : (s.sideIndices side).getD
            ((c0 + j) % (s.sideIndices side).length) 0 < s.cannons.length :=
          hvalid _ (getD_mem_of_lt _ _ hposj)
        have h4 := Ship.tickCooldowns_cooldownAt s dt _ hvj
        unfold Ship.cooldownAt at h4
        rw [h4]
        have h5 := hcool j (by omega) hj2
        unfold Ship.cooldownAt at h5
        exact max_le le_rfl (by linarith))
      (by rw [fires.2.2.2.1, hdel2, obs.2.2.2.1])
      (by rw [hdel2]; exact hdelay)
      (by
        rw [hdel2]
        intro q hq
        exact hdts q (List.mem_cons_of_mem _ hq))
    constructor
    · simp only [Ship.fireAttempts, List.length_cons]
      rw [List.range_succ_eq_map, List.map_cons, List.map_map]
      congr 1
      · rw [fires.1, hcm]
        simp
      · rw [harg.1, hind2]
        apply List.map_congr_left
        intro j hj
        simp only [Function.comp_apply, Nat.succ_eq_add_one]
        rw [show c0 + (k + 1) + j = c0 + k + (j + 1) from by omega]
    · intro hnil
      simp only [Ship.fireAttempts]
      rcases List.eq_nil_or_concat rest with hrest | hrest
      · subst hrest
        simp only [Ship.fireAttempts]
        rw [fires.2.2.1, obs.2.1, obs.1]
        have hme : Nat.ModEq (s.sideIndices side).length (s.sideNext side) (c0 + k) := hnext
        have h6 := hme.add_right 1
        rw [h6]
        simp only [List.length_cons, List.length_nil]
      · have hrne : rest ≠ [] := by
          rcases hrest with ⟨l2, a, hr⟩
          subst hr
          simp
        rw [harg.2 hrne, hind2]
        simp only [List.length_cons]
        congr 1
        omega

/-- C4: with every mount of a broadside ready (cooldown 0) and the
inter-shot timer run out, a full cycle of discharge attempts — one per
mount, each separated by at least the inter-shot delay — fires exactly one
mount per attempt, reading the side's mount list as a rotation from the
round-robin cursor; the fired mounts are a permutation of the side's
mounts, so every mount fires exactly once before any fires twice, and the
cursor ends one full cycle ahead. -/
theorem broadside_round_robin (s : Ship) (side : Side) (dts : List (ℝ × ℝ))
    (hN : ¬ (s.sideIndices side).length = 0)
    (hnodup : (s.sideIndices side).Nodup)
    (hvalid : ∀ i ∈ s.sideIndices side, i < s.cannons.length)
    (hready : ∀ i ∈ s.sideIndices side, s.cooldownAt i = 0)
    (htimer : s.sideTimer side ≤ 0)
    (hdelay : 0 ≤ s.interShotDelay)
    (hlen : dts.length = (s.sideIndices side).length)
    (hdts : ∀ p ∈ dts, s.interShotDelay ≤ p.1) :
    (s.fireAttempts side dts).2 =
      ((s.sideIndices side).rotate (s.sideNext side)).map some ∧
    ((s.fireAttempts side dts).2.filterMap id).Perm (s.sideIndices side) ∧
    ((s.fireAttempts side dts).1).sideNext side =
      (s.sideNext side + (s.sideIndices side).length) % (s.sideIndices side).length := by
  have hN0 : 0 < (s.sideIndices side).length := Nat.pos_of_ne_zero hN
  have hwalk := Ship.fireAttempts_walk side dts s (s.sideNext side) 0
    (by omega)
    hnodup hvalid
    (by simp)
    (by
      intro j _ hj
      have hpos : (s.sideNext side + j) % (s.sideIndices side).length <
          (s.sideIndices side).length := Nat.mod_lt _ hN0
      exact le_of_eq (hready _ (getD_mem_of_lt _ _ hpos)))
    (le_trans htimer hdelay) hdelay hdts
  have hfired : (s.fireAttempts side dts).2 =
      ((s.sideIndices side).rotate (s.sideNext side)).map some := by
    rw [hwalk.1, hlen, ← range_map_getD_rotate, List.map_map]
    apply List.map_congr_left
    intro j hj
    simp [Function.comp]
  refine ⟨hfired, ?_, ?_⟩
  · rw [hfired]
    have hfm : (((s.sideIndices side).rotate (s.sideNext side)).map some).filterMap id =
        (s.sideIndices side).rotate (s.sideNext side) := by
      simp
    rw [hfm]
    exact List.rotate_perm _ _
  · have hne : dts ≠ [] := by
      intro h
      rw [h] at hlen
      simp at hlen
      exact hN hlen.symm
    rw [hwalk.2 hne, hlen]
    congr 1

/-- C4 (witness): the round-robin cycle instantiated at a ship with a
two-mount port broadside, both ready, attempts separated by one second. -/
theorem broadside_round_robin_witness :
    (broadsideShip.fireAttempts Side.port [(1, 0), (1, 0)]).2 =
      ((broadsideShip.sideIndices Side.port).rotate
        (broadsideShip.sideNext Side.port)).map some ∧
    ((broadsideShip.fireAttempts Side.port [(1, 0), (1, 0)]).2.filterMap id).Perm
      (broadsideShip.sideIndices Side.port) ∧
    ((broadsideShip.fireAttempts Side.port [(1, 0), (1, 0)]).1).sideNext Side.port =
      (broadsideShip.sideNext Side.port + (broadsideShip.sideIndices Side.port).length) %
        (broadsideShip.sideIndices Side.port).length :=
  broadside_round_robin broadsideShip Side.port [(1, 0), (1, 0)]
    (by rw [show broadsideShip.sideIndices Side.port = [0, 1] from rfl]; decide)
    (by rw [show broadsideShip.sideIndices Side.port = [0, 1] from rfl]; decide)
    (by
      intro i hi
      rw [show broadsideShip.sideIndices Side.port = [0, 1] from rfl] at hi
      rw [show broadsideShip.cannons.length = 2 from rfl]
      rcases List.mem_cons.mp hi with h | h
      · omega
      · rcases List.mem_cons.mp h with h2 | h2
        · omega
        · simp at h2)
    (by
      intro i hi
      rw [show broadsideShip.sideIndices Side.port = [0, 1] from rfl] at hi
      rcases List.mem_cons.mp hi with h | h
      · subst h; rfl
      · rcases List.mem_cons.mp h with h2 | h2
        · subst h2; rfl
        · simp at h2)
    (le_of_eq (rfl : broadsideShip.sideTimer Side.port = 0))
    (by rw [show broadsideShip.interShotDelay = 0.08 from rfl]; norm_num)
    rfl
    (by
      intro p hp
      rw [show broadsideShip.interShotDelay = 0.08 from rfl]
      rcases List.mem_cons.mp hp with h | h
      · subst h; norm_num
      · rcases List.mem_cons.mp h with h2 | h2
        · subst h2; norm_num
        · simp at h2)

/-! ### Ramming damage (C7, C8) -/

theorem Ship.startSinking_frame (s : Ship) :
    (s.startSinking).health = s.health ∧ (s.startSinking).id = s.id := by
  unfold Ship.startSinking
  split <;> exact ⟨rfl, rfl⟩

theorem tickSum_nonneg (ops : List RamOp)
    (h : ∀ dt, RamOp.tick dt ∈ ops → 0 ≤ dt) : 0 ≤ tickSum ops := by
  induction ops with
  | nil => simp [tickSum]
  | cons op rest ih =>
    cases op with
    | tick dt =>
      simp only [tickSum]
      have h1 := h dt (List.mem_cons_self _ _)
      have h2 := ih (fun d hd => h d (List.mem_cons_of_mem _ hd))
      linarith
    | ram sp nx ny =>
      simp only [tickSum]
      exact ih (fun d hd => h d (List.mem_cons_of_mem _ hd))

/-! ### Branch characterizations of resolveShipPairCollision -/

/-- If either ship is a fully sunk ghost the solver does nothing. -/
theorem resolve_ghost (cfg : CollisionConfig) (cds : CooldownMap) (A B : Ship)
    (hg : (A.isSinking = true ∧ A.isFullySunkProp) ∨
      (B.isSinking = true ∧ B.isFullySunkProp)) :
    CollisionSystem.resolveShipPairCollision cfg cds A B = (cds, A, B) := by
  simp only [CollisionSystem.resolveShipPairCollision]
  rw [if_pos hg]

/-- If the circles do not overlap the solver does nothing. -/
theorem resolve_miss (cfg : CollisionConfig) (cds : CooldownMap) (A B : Ship)
    (hg : ¬ ((A.isSinking = true ∧ A.isFullySunkProp) ∨
      (B.isSinking = true ∧ B.isFullySunkProp)))
    (hco : ¬ distSqOf A B ≤ 1e-6)
    (hov : (A.getCollisionRadius + B.getCollisionRadius) *
      (A.getCollisionRadius + B.getCollisionRadius) ≤ distSqOf A B) :
    CollisionSystem.resolveShipPairCollision cfg cds A B = (cds, A, B) := by
  unfold distSqOf at hco hov
  simp only [CollisionSystem.resolveShipPairCollision]
  rw [if_neg hg, if_neg hco, if_pos hov]

/-- Overlapping but separating hulls only get the positional
correction. -/
theorem resolve_separate (cfg : CollisionConfig) (cds : CooldownMap) (A B : Ship)
    (hg : ¬ ((A.isSinking = true ∧ A.isFullySunkProp) ∨
      (B.isSinking = true ∧ B.isFullySunkProp)))
    (hco : ¬ distSqOf A B ≤ 1e-6)
    (hov : ¬ (A.getCollisionRadius + B.getCollisionRadius) *
      (A.getCollisionRadius + B.getCollisionRadius) ≤ distSqOf A B)
    (hcl : 0 ≤ relNOf A B) :
    CollisionSystem.resolveShipPairCollision cfg cds A B =
      (cds, separatedFirst A B, separatedSecond A B) := by
  unfold relNOf nxOf nyOf distSqOf at hcl
  unfold distSqOf at hco hov
  simp only [CollisionSystem.resolveShipPairCollision]
  rw [if_neg hg, if_neg hco, if_neg hov, if_pos hcl]
  unfold separatedFirst separatedSecond corrOf corrOf2 nxOf nyOf distSqOf
  rfl

/-- Overlapping, closing hulls get the correction, the impulse with
friction and the angular kick, then the ramming-damage pass. -/
theorem resolve_impulse (cfg : CollisionConfig) (cds : CooldownMap) (A B : Ship)
    (hg : ¬ ((A.isSinking = true ∧ A.isFullySunkProp) ∨
      (B.isSinking = true ∧ B.isFullySunkProp)))
    (hco : ¬ distSqOf A B ≤ 1e-6)
    (hov : ¬ (A.getCollisionRadius + B.getCollisionRadius) *
      (A.getCollisionRadius + B.getCollisionRadius) ≤ distSqOf A B)
    (hcl : ¬ 0 ≤ relNOf A B) :
    CollisionSystem.resolveShipPairCollision cfg cds A B =
      CollisionSystem.applyRammingDamage cfg cds
        (impulsedFirst cfg A B) (impulsedSecond cfg A B)
        (relSpeedOf A B) (nxOf A B) (nyOf A B) := by
  unfold relNOf nxOf nyOf distSqOf at hcl
  unfold distSqOf at hco hov
  simp only [CollisionSystem.resolveShipPairCollision]
  rw [if_neg hg, if_neg hco, if_neg hov, if_neg hcl]
  unfold impulsedFirst impulsedSecond relSpeedOf frictionOf impulseOf relTOf
    corrOf corrOf2 relNOf nxOf nyOf distSqOf
  rfl

/-! ### Symmetry algebra for the solver's intermediate quantities -/

theorem distSqOf_comm (A B : Ship) : distSqOf B A = distSqOf A B := by
  unfold distSqOf; ring

theorem nxOf_swap (A B : Ship) : nxOf B A = -(nxOf A B) := by
  unfold nxOf; rw [distSqOf_comm]; ring

theorem nyOf_swap (A B : Ship) : nyOf B A = -(nyOf A B) := by
  unfold nyOf; rw [distSqOf_comm]; ring

theorem relSpeedOf_swap (A B : Ship) : relSpeedOf B A = relSpeedOf A B := by
  unfold relSpeedOf; congr 1; ring

theorem relNOf_swap (A B : Ship) : relNOf B A = relNOf A B := by
  unfold relNOf; rw [nxOf_swap, nyOf_swap]; ring

theorem relTOf_swap (A B : Ship) : relTOf B A = relTOf A B := by
  unfold relTOf; rw [nxOf_swap, nyOf_swap]; ring

theorem impulseOf_swap (cfg : CollisionConfig) (A B : Ship) :
    impulseOf cfg B A = impulseOf cfg A B := by
  unfold impulseOf; rw [relNOf_swap]; ring

theorem frictionOf_swap (cfg : CollisionConfig) (A B : Ship) :
    frictionOf cfg B A = frictionOf cfg A B := by
  unfold frictionOf
  rw [impulseOf_swap, relTOf_swap, add_comm (1 / B.getMass) (1 / A.getMass)]

theorem corrOf_swap (A B : Ship) : corrOf B A = corrOf2 A B := by
  unfold corrOf corrOf2; rw [distSqOf_comm]; ring

theorem corrOf2_swap (A B : Ship) : corrOf2 B A = corrOf A B := by
  unfold corrOf corrOf2; rw [distSqOf_comm]; ring

theorem separatedFirst_swap (A B : Ship) :
    separatedFirst B A = separatedSecond A B := by
  have h1 : B.pos.1 - nxOf B A * corrOf B A = B.pos.1 + nxOf A B * corrOf2 A B := by
    rw [nxOf_swap, corrOf_swap]; ring
  have h2 : B.pos.2 - nyOf B A * corrOf B A = B.pos.2 + nyOf A B * corrOf2 A B := by
    rw [nyOf_swap, corrOf_swap]; ring
  unfold separatedFirst separatedSecond
  rw [h1, h2]

theorem separatedSecond_swap (A B : Ship) :
    separatedSecond B A = separatedFirst A B := by
  have h1 : A.pos.1 + nxOf B A * corrOf2 B A = A.pos.1 - nxOf A B * corrOf A B := by
    rw [nxOf_swap, corrOf2_swap]; ring
  have h2 : A.pos.2 + nyOf B A * corrOf2 B A = A.pos.2 - nyOf A B * corrOf A B := by
    rw [nyOf_swap, corrOf2_swap]; ring
  unfold separatedFirst separatedSecond
  rw [h1, h2]

/-- Swapping the argument order flips only the sign of the angular
kick on the post-impulse ships. -/
theorem impulsedFirst_swap (cfg : CollisionConfig) (A B : Ship) :
    impulsedFirst cfg B A =
      { impulsedSecond cfg A B with angVel := B.angVel - relTOf A B * 0.0008 } := by
  have h1 : B.pos.1 - nxOf B A * corrOf B A = B.pos.1 + nxOf A B * corrOf2 A B := by
    rw [nxOf_swap, corrOf_swap]; ring
  have h2 : B.pos.2 - nyOf B A * corrOf B A = B.pos.2 + nyOf A B * corrOf2 A B := by
    rw [nyOf_swap, corrOf_swap]; ring
  have h3 : B.vel.1 - impulseOf cfg B A * nxOf B A / B.getMass -
      frictionOf cfg B A * -(nyOf B A) / B.getMass =
      B.vel.1 + impulseOf cfg A B * nxOf A B / B.getMass +
      frictionOf cfg A B * -(nyOf A B) / B.getMass := by
    rw [nxOf_swap, nyOf_swap, impulseOf_swap, frictionOf_swap]; ring
  have h4 : B.vel.2 - impulseOf cfg B A * nyOf B A / B.getMass -
      frictionOf cfg B A * nxOf B A / B.getMass =
      B.vel.2 + impulseOf cfg A B * nyOf A B / B.getMass +
      frictionOf cfg A B * nxOf A B / B.getMass := by
    rw [nxOf_swap, nyOf_swap, impulseOf_swap, frictionOf_swap]; ring
  have h5 : B.angVel - relTOf B A * 0.0008 = B.angVel - relTOf A B * 0.0008 := by
    rw [relTOf_swap]
  unfold impulsedFirst impulsedSecond
  rw [h1, h2, h3, h4, h5]

theorem impulsedSecond_swap (cfg : CollisionConfig) (A B : Ship) :
    impulsedSecond cfg B A =
      { impulsedFirst cfg A B with angVel := A.angVel + relTOf A B * 0.0008 } := by
  have h1 : A.pos.1 + nxOf B A * corrOf2 B A = A.pos.1 - nxOf A B * corrOf A B := by
    rw [nxOf_swap, corrOf2_swap]; ring
  have h2 : A.pos.2 + nyOf B A * corrOf2 B A = A.pos.2 - nyOf A B * corrOf A B := by
    rw [nyOf_swap, corrOf2_swap]; ring
  have h3 : A.vel.1 + impulseOf cfg B A * nxOf B A / A.getMass +
      frictionOf cfg B A * -(nyOf B A) / A.getMass =
      A.vel.1 - impulseOf cfg A B * nxOf A B / A.getMass -
      frictionOf cfg A B * -(nyOf A B) / A.getMass := by
    rw [nxOf_swap, nyOf_swap, impulseOf_swap, frictionOf_swap]; ring
  have h4 : A.vel.2 + impulseOf cfg B A * nyOf B A / A.getMass +
      frictionOf cfg B A * nxOf B A / A.getMass =
      A.vel.2 - impulseOf cfg A B * nyOf A B / A.getMass -
      frictionOf cfg A B * nxOf A B / A.getMass := by
    rw [nxOf_swap, nyOf_swap, impulseOf_swap, frictionOf_swap]; ring
  have h5 : A.angVel + relTOf B A * 0.0008 = A.angVel + relTOf A B * 0.0008 := by
    rw [relTOf_swap]
  unfold impulsedFirst impulsedSecond
  rw [h1, h2, h3, h4, h5]

/-! ### Symmetry of the ramming-damage pass -/

theorem pairKey_comm (a b : ℕ) : pairKey b a = pairKey a b := by
  unfold pairKey
  rw [Nat.min_comm, Nat.max_comm]

/-- The ramming pass only touches health, sinking state and the cooldown
map: positions, velocities and angular velocities pass through. -/
theorem applyRammingDamage_kin (cfg : CollisionConfig) (m : CooldownMap)
    (A B : Ship) (sp nx ny : ℝ) :
    (CollisionSystem.applyRammingDamage cfg m A B sp nx ny).2.1.pos = A.pos ∧
    (CollisionSystem.applyRammingDamage cfg m A B sp nx ny).2.1.vel = A.vel ∧
    (CollisionSystem.applyRammingDamage cfg m A B sp nx ny).2.1.angVel = A.angVel ∧
    (CollisionSystem.applyRammingDamage cfg m A B sp nx ny).2.2.pos = B.pos ∧
    (CollisionSystem.applyRammingDamage cfg m A B sp nx ny).2.2.vel = B.vel ∧
    (CollisionSystem.applyRammingDamage cfg m A B sp nx ny).2.2.angVel = B.angVel := by
  refine ⟨?_, ?_, ?_, ?_, ?_, ?_⟩ <;>
    · simp only [CollisionSystem.applyRammingDamage, Ship.takeDamage,
        Ship.startSinking]
      (repeat' split) <;> rfl

/-- A ramming attempt on a pair whose key is on cooldown changes
nothing. -/
theorem applyRammingDamage_on_cooldown (cfg : CollisionConfig) (cds : CooldownMap)
    (A B : Ship) (sp nx ny : ℝ)
    (h : (cds (pairKey A.id B.id)).isSome = true) :
    CollisionSystem.applyRammingDamage cfg cds A B sp nx ny = (cds, A, B) := by
  unfold CollisionSystem.applyRammingDamage
  rw [if_pos h]

/-- Swapping the ships and negating the normal swaps the ramming pass's
two ship outputs and keeps the same cooldown map. -/
theorem applyRammingDamage_swap (cfg : CollisionConfig) (m : CooldownMap)
    (A B : Ship) (sp nx ny : ℝ) :
    CollisionSystem.applyRammingDamage cfg m B A sp (-nx) (-ny) =
      ((CollisionSystem.applyRammingDamage cfg m A B sp nx ny).1,
       (CollisionSystem.applyRammingDamage cfg m A B sp nx ny).2.2,
       (CollisionSystem.applyRammingDamage cfg m A B sp nx ny).2.1) := by
  by_cases hsome : (m (pairKey A.id B.id)).isSome = true
  · rw [applyRammingDamage_on_cooldown cfg m A B sp nx ny hsome,
      applyRammingDamage_on_cooldown cfg m B A sp (-nx) (-ny)
        (by rw [pairKey_comm]; exact hsome)]
  · have hsome2 : ¬ (m (pairKey B.id A.id)).isSome = true := by
      rw [pairKey_comm]; exact hsome
    unfold CollisionSystem.applyRammingDamage
    rw [if_neg hsome, if_neg hsome2, pairKey_comm B.id A.id]
    simp only [neg_neg]
    rcases Classical.em ((0.7 : ℝ) < A.forwardVec.1 * nx + A.forwardVec.2 * ny)
        with hA | hA <;>
      rcases Classical.em ((0.7 : ℝ) < B.forwardVec.1 * (-nx) + B.forwardVec.2 * (-ny))
        with hB | hB
    · simp only [decide_eq_true hA, decide_eq_true hB]
      norm_num
    · simp only [decide_eq_true hA, decide_eq_false hB]
      norm_num
    · simp only [decide_eq_false hA, decide_eq_true hB]
      norm_num
    · simp only [decide_eq_false hA, decide_eq_false hB]
      norm_num

/-- The ramming pass never reads the angular velocities: overriding them
on the inputs just carries the overrides to the corresponding outputs. -/
theorem applyRammingDamage_setAngVel (cfg : CollisionConfig) (m : CooldownMap)
    (A B : Ship) (sp nx ny u v : ℝ) :
    CollisionSystem.applyRammingDamage cfg m
        { A with angVel := u } { B with angVel := v } sp nx ny =
      ((CollisionSystem.applyRammingDamage cfg m A B sp nx ny).1,
       { (CollisionSystem.applyRammingDamage cfg m A B sp nx ny).2.1 with
         angVel := u },
       { (CollisionSystem.applyRammingDamage cfg m A B sp nx ny).2.2 with
         angVel := v }) := by
  unfold CollisionSystem.applyRammingDamage Ship.takeDamage Ship.startSinking
    Ship.forwardVec
  dsimp only
  split_ifs <;> rfl

/-- A ramming attempt on a pair whose key is free sets the pair cooldown
and keeps both ship ids. -/
theorem applyRammingDamage_sets_cooldown (cfg : CollisionConfig) (cds : CooldownMap)
    (A B : Ship) (sp nx ny : ℝ)
    (h : cds (pairKey A.id B.id) = none) :
    (CollisionSystem.applyRammingDamage cfg cds A B sp nx ny).1 =
      cdSet cds (pairKey A.id B.id) cfg.damageCooldown ∧
    (CollisionSystem.applyRammingDamage cfg cds A B sp nx ny).2.1.id = A.id ∧
    (CollisionSystem.applyRammingDamage cfg cds A B sp nx ny).2.2.id = B.id := by
  unfold CollisionSystem.applyRammingDamage
  rw [if_neg (by rw [h]; simp)]
  refine ⟨rfl, ?_, ?_⟩ <;>
    · simp only
      (repeat' split) <;>
        first
          | exact (Ship.startSinking_frame _).2
          | rfl

/-- While the pair key stays on cooldown, no trace of ticks (summing to
less than the remaining cooldown) and ramming attempts changes either
ship, and the key stays present. -/
theorem runRamOps_frozen (cfg : CollisionConfig) (ops : List RamOp) :
    ∀ (st : PairState) (c : ℝ),
    st.cds (pairKey st.shipA.id st.shipB.id) = some c →
    (∀ dt, RamOp.tick dt ∈ ops → 0 ≤ dt) →
    tickSum ops < c →
    (runRamOps cfg st ops).shipA = st.shipA ∧
    (runRamOps cfg st ops).shipB = st.shipB ∧
    ((runRamOps cfg st ops).cds (pairKey st.shipA.id st.shipB.id)).isSome = true := by
  induction ops with
  | nil =>
    intro st c hk _ _
    refine ⟨rfl, rfl, ?_⟩
    simp only [runRamOps]
    rw [hk]
    rfl
  | cons op rest ih =>
    cases op with
    | tick dt =>
      intro st c hk hops hsum
      have hdt : 0 ≤ dt := hops dt (List.mem_cons_self _ _)
      have hrest : ∀ d, RamOp.tick d ∈ rest → 0 ≤ d :=
        fun d hd => hops d (List.mem_cons_of_mem _ hd)
      have hrest_nn : 0 ≤ tickSum rest := tickSum_nonneg rest hrest
      simp only [tickSum] at hsum
      have hk2 : (CollisionSystem.update st.cds dt) (pairKey st.shipA.id st.shipB.id) =
          some (c - dt) := by
        simp only [CollisionSystem.update, hk]
        rw [if_neg (show ¬ c - dt ≤ 0 by push_neg; linarith)]
      have hstep := ih { st with cds := CollisionSystem.update st.cds dt } (c - dt)
        hk2 hrest (by linarith)
      simpa only [runRamOps] using hstep
    | ram sp nx ny =>
      intro st c hk hops hsum
      have hsome : (st.cds (pairKey st.shipA.id st.shipB.id)).isSome = true := by
        rw [hk]; rfl
      have happ := applyRammingDamage_on_cooldown cfg st.cds st.shipA st.shipB sp nx ny hsome
      have hrest : ∀ d, RamOp.tick d ∈ rest → 0 ≤ d :=
        fun d hd => hops d (List.mem_cons_of_mem _ hd)
      simp only [tickSum] at hsum
      have hstep := ih st c hk hrest hsum
      simpa only [runRamOps, happ] using hstep

/-- C8: once ramming damage fires for a pair (key free), any further trace
of cooldown ticks and ramming attempts on that exact pair — ticking less
than the configured damage cooldown in total, even with several attempts
per tick under continuous overlap — leaves both ships exactly as the first
ramming event left them, and the pair's cooldown entry is still present. -/
theorem ramming_pair_cooldown (cfg : CollisionConfig) (m : CooldownMap) (A B : Ship)
    (sp nx ny : ℝ) (ops : List RamOp)
    (hkey : m (pairKey A.id B.id) = none)
    (hops : ∀ dt, RamOp.tick dt ∈ ops → 0 ≤ dt)
    (hsum : tickSum ops < cfg.damageCooldown) :
    (runRamOps cfg
        { cds := (CollisionSystem.applyRammingDamage cfg m A B sp nx ny).1,
          shipA := (CollisionSystem.applyRammingDamage cfg m A B sp nx ny).2.1,
          shipB := (CollisionSystem.applyRammingDamage cfg m A B sp nx ny).2.2 } ops).shipA =
      (CollisionSystem.applyRammingDamage cfg m A B sp nx ny).2.1 ∧
    (runRamOps cfg
        { cds := (CollisionSystem.applyRammingDamage cfg m A B sp nx ny).1,
          shipA := (CollisionSystem.applyRammingDamage cfg m A B sp nx ny).2.1,
          shipB := (CollisionSystem.applyRammingDamage cfg m A B sp nx ny).2.2 } ops).shipB =
      (CollisionSystem.applyRammingDamage cfg m A B sp nx ny).2.2 ∧
    ((runRamOps cfg
        { cds := (CollisionSystem.applyRammingDamage cfg m A B sp nx ny).1,
          shipA := (CollisionSystem.applyRammingDamage cfg m A B sp nx ny).2.1,
          shipB := (CollisionSystem.applyRammingDamage cfg m A B sp nx ny).2.2 } ops).cds
      (pairKey A.id B.id)).isSome = true := by
  obtain ⟨h1, h2, h3⟩ := applyRammingDamage_sets_cooldown cfg m A B sp nx ny hkey
  have hfrozen := runRamOps_frozen cfg ops
    { cds := (CollisionSystem.applyRammingDamage cfg m A B sp nx ny).1,
      shipA := (CollisionSystem.applyRammingDamage cfg m A B sp nx ny).2.1,
      shipB := (CollisionSystem.applyRammingDamage cfg m A B sp nx ny).2.2 }
    cfg.damageCooldown
    (by
      simp only [h1, h2, h3]
      unfold cdSet
      rw [if_pos rfl])
    hops hsum
  refine ⟨hfrozen.1, hfrozen.2.1, ?_⟩
  have h4 := hfrozen.2.2
  simp only [h2, h3] at h4
  exact h4

/-- C8 (witness): two distinct ships ram once; a tick of 0.5 s, a repeated
ramming attempt and another tick (total 1 s against a 2 s cooldown) change
nothing. -/
theorem ramming_pair_cooldown_witness :
    (runRamOps probeConfig
        { cds := (CollisionSystem.applyRammingDamage probeConfig emptyCooldowns
            testShip otherShip 200 1 0).1,
          shipA := (CollisionSystem.applyRammingDamage probeConfig emptyCooldowns
            testShip otherShip 200 1 0).2.1,
          shipB := (CollisionSystem.applyRammingDamage probeConfig emptyCooldowns
            testShip otherShip 200 1 0).2.2 }
        [RamOp.tick 0.5, RamOp.ram 200 1 0, RamOp.tick 0.5]).shipA =
      (CollisionSystem.applyRammingDamage probeConfig emptyCooldowns
        testShip otherShip 200 1 0).2.1 ∧
    (runRamOps probeConfig
        { cds := (CollisionSystem.applyRammingDamage probeConfig emptyCooldowns
            testShip otherShip 200 1 0).1,
          shipA := (CollisionSystem.applyRammingDamage probeConfig emptyCooldowns
            testShip otherShip 200 1 0).2.1,
          shipB := (CollisionSystem.applyRammingDamage probeConfig emptyCooldowns
            testShip otherShip 200 1 0).2.2 }
        [RamOp.tick 0.5, RamOp.ram 200 1 0, RamOp.tick 0.5]).shipB =
      (CollisionSystem.applyRammingDamage probeConfig emptyCooldowns
        testShip otherShip 200 1 0).2.2 ∧
    ((runRamOps probeConfig
        { cds := (CollisionSystem.applyRammingDamage probeConfig emptyCooldowns
            testShip otherShip 200 1 0).1,
          shipA := (CollisionSystem.applyRammingDamage probeConfig emptyCooldowns
            testShip otherShip 200 1 0).2.1,
          shipB := (CollisionSystem.applyRammingDamage probeConfig emptyCooldowns
            testShip otherShip 200 1 0).2.2 }
        [RamOp.tick 0.5, RamOp.ram 200 1 0, RamOp.tick 0.5]).cds
      (pairKey testShip.id otherShip.id)).isSome = true :=
  ramming_pair_cooldown probeConfig emptyCooldowns testShip otherShip 200 1 0
    [RamOp.tick 0.5, RamOp.ram 200 1 0, RamOp.tick 0.5] rfl
    (by
      intro dt hdt
      rcases List.mem_cons.mp hdt with h | h
      · cases h; norm_num
      · rcases List.mem_cons.mp h with h2 | h2
        · cases h2
        · rcases List.mem_cons.mp h2 with h3 | h3
          · cases h3; norm_num
          · simp at h3)
    (by
      simp only [tickSum]
      rw [show probeConfig.damageCooldown = 2 from rfl]
      norm_num)

theorem sinkCheck_health (s : Ship) :
    (if s.health ≤ 0 ∧ s.isSinking = false then s.startSinking else s).health =
      s.health := by
  split
  · exact (Ship.startSinking_frame _).1
  · rfl

/-- C7: with the pair off cooldown and combined relative speed 200, if
exactly one hull's bow is within the cone (forward · normal above the 0.7
threshold, about cos 45°), the struck hull takes the full
speed-proportional share max(20, 200·0.67) = 134 and the rammer exactly
one third of it; if neither or both are bow-on, each takes the equal
smaller share 200·0.25 = 50. -/
theorem ramming_bow_shares (cfg : CollisionConfig) (m : CooldownMap) (A B : Ship)
    (nx ny : ℝ) (hkey : m (pairKey A.id B.id) = none) :
    (0.7 < A.forwardVec.1 * nx + A.forwardVec.2 * ny →
      ¬ 0.7 < B.forwardVec.1 * (-nx) + B.forwardVec.2 * (-ny) →
      (CollisionSystem.applyRammingDamage cfg m A B 200 nx ny).2.2.health =
        max 0 (B.health - 134) ∧
      (CollisionSystem.applyRammingDamage cfg m A B 200 nx ny).2.1.health =
        max 0 (A.health - 134 / 3)) ∧
    (¬ 0.7 < A.forwardVec.1 * nx + A.forwardVec.2 * ny →
      0.7 < B.forwardVec.1 * (-nx) + B.forwardVec.2 * (-ny) →
      (CollisionSystem.applyRammingDamage cfg m A B 200 nx ny).2.1.health =
        max 0 (A.health - 134) ∧
      (CollisionSystem.applyRammingDamage cfg m A B 200 nx ny).2.2.health =
        max 0 (B.health - 134 / 3)) ∧
    ((0.7 < A.forwardVec.1 * nx + A.forwardVec.2 * ny ↔
      0.7 < B.forwardVec.1 * (-nx) + B.forwardVec.2 * (-ny)) →
      (CollisionSystem.applyRammingDamage cfg m A B 200 nx ny).2.1.health =
        max 0 (A.health - 50) ∧
      (CollisionSystem.applyRammingDamage cfg m A B 200 nx ny).2.2.health =
        max 0 (B.health - 50)) := by
  have hbase : max (20 : ℝ) (200 * 0.67) = 134 := by norm_num
  have hnotk : ¬ (m (pairKey A.id B.id)).isSome = true := by rw [hkey]; simp
  refine ⟨?_, ?_, ?_⟩
  · intro hA hB
    unfold CollisionSystem.applyRammingDamage
    rw [if_neg hnotk]
    simp only [decide_eq_true hA, decide_eq_false hB, hbase]
    norm_num
    constructor <;>
      · rw [sinkCheck_health]
        unfold Ship.takeDamage
        norm_num
  · intro hA hB
    unfold CollisionSystem.applyRammingDamage
    rw [if_neg hnotk]
    simp only [decide_eq_false hA, decide_eq_true hB, hbase]
    norm_num
    constructor <;>
      · rw [sinkCheck_health]
        unfold Ship.takeDamage
        norm_num
  · intro hiff
    unfold CollisionSystem.applyRammingDamage
    rw [if_neg hnotk]
    rcases Classical.em (0.7 < A.forwardVec.1 * nx + A.forwardVec.2 * ny) with hA | hA
    · have hB := hiff.mp hA
      simp only [decide_eq_true hA, decide_eq_true hB]
      norm_num
      constructor <;>
        · rw [sinkCheck_health]
          unfold Ship.takeDamage
          norm_num
    · have hB : ¬ 0.7 < B.forwardVec.1 * (-nx) + B.forwardVec.2 * (-ny) :=
        fun h => hA (hiff.mpr h)
      simp only [decide_eq_false hA, decide_eq_false hB]
      norm_num
      constructor <;>
        · rw [sinkCheck_health]
          unfold Ship.takeDamage
          norm_num

/-- C7 (witness): both hulls facing +x with collision normal (1, 0): A is
bow-on toward B, B faces away, so all three case implications are
instantiated at a concrete off-cooldown pair. -/
theorem ramming_bow_shares_witness :
    (0.7 < testShip.forwardVec.1 * 1 + testShip.forwardVec.2 * 0 →
      ¬ 0.7 < otherShip.forwardVec.1 * (-1) + otherShip.forwardVec.2 * (-0) →
      (CollisionSystem.applyRammingDamage probeConfig emptyCooldowns
        testShip otherShip 200 1 0).2.2.health = max 0 (otherShip.health - 134) ∧
      (CollisionSystem.applyRammingDamage probeConfig emptyCooldowns
        testShip otherShip 200 1 0).2.1.health = max 0 (testShip.health - 134 / 3)) ∧
    (¬ 0.7 < testShip.forwardVec.1 * 1 + testShip.forwardVec.2 * 0 →
      0.7 < otherShip.forwardVec.1 * (-1) + otherShip.forwardVec.2 * (-0) →
      (CollisionSystem.applyRammingDamage probeConfig emptyCooldowns
        testShip otherShip 200 1 0).2.1.health = max 0 (testShip.health - 134) ∧
      (CollisionSystem.applyRammingDamage probeConfig emptyCooldowns
        testShip otherShip 200 1 0).2.2.health = max 0 (otherShip.health - 134 / 3)) ∧
    ((0.7 < testShip.forwardVec.1 * 1 + testShip.forwardVec.2 * 0 ↔
      0.7 < otherShip.forwardVec.1 * (-1) + otherShip.forwardVec.2 * (-0)) →
      (CollisionSystem.applyRammingDamage probeConfig emptyCooldowns
        testShip otherShip 200 1 0).2.1.health = max 0 (testShip.health - 50) ∧
      (CollisionSystem.applyRammingDamage probeConfig emptyCooldowns
        testShip otherShip 200 1 0).2.2.health = max 0 (otherShip.health - 50)) :=
  ramming_bow_shares probeConfig emptyCooldowns testShip otherShip 1 0 rfl

/-- C6 (amended): for non-coincident centers (distance squared above 1e-6)
and nonzero masses, resolving a pair in the two orders gives the same
cooldown map and the same two ships except for the angular-velocity kick,
whose sign flips when the order is swapped; and in a fixed order the
positional corrections and the velocity impulses applied to the two hulls
are equal-and-opposite once scaled by the respective masses.  The results
are not identical as the spec claims: the angular kick is
order-dependent. -/
theorem resolve_pair_swap (cfg : CollisionConfig) (m : CooldownMap) (A B : Ship)
    (hdist : ¬ distSqOf A B ≤ 1e-6)
    (hmA : A.getMass ≠ 0) (hmB : B.getMass ≠ 0) :
    (CollisionSystem.resolveShipPairCollision cfg m B A).1 =
      (CollisionSystem.resolveShipPairCollision cfg m A B).1 ∧
    { (CollisionSystem.resolveShipPairCollision cfg m B A).2.2 with
      angVel := (0 : ℝ) } =
      { (CollisionSystem.resolveShipPairCollision cfg m A B).2.1 with
        angVel := (0 : ℝ) } ∧
    { (CollisionSystem.resolveShipPairCollision cfg m B A).2.1 with
      angVel := (0 : ℝ) } =
      { (CollisionSystem.resolveShipPairCollision cfg m A B).2.2 with
        angVel := (0 : ℝ) } ∧
    (CollisionSystem.resolveShipPairCollision cfg m B A).2.2.angVel - A.angVel =
      -((CollisionSystem.resolveShipPairCollision cfg m A B).2.1.angVel - A.angVel) ∧
    (CollisionSystem.resolveShipPairCollision cfg m B A).2.1.angVel - B.angVel =
      -((CollisionSystem.resolveShipPairCollision cfg m A B).2.2.angVel - B.angVel) ∧
    scale ((CollisionSystem.resolveShipPairCollision cfg m A B).2.1.pos.1 - A.pos.1,
        (CollisionSystem.resolveShipPairCollision cfg m A B).2.1.pos.2 - A.pos.2)
        A.getMass =
      scale ((CollisionSystem.resolveShipPairCollision cfg m A B).2.2.pos.1 - B.pos.1,
          (CollisionSystem.resolveShipPairCollision cfg m A B).2.2.pos.2 - B.pos.2)
        (-B.getMass) ∧
    scale ((CollisionSystem.resolveShipPairCollision cfg m A B).2.1.vel.1 - A.vel.1,
        (CollisionSystem.resolveShipPairCollision cfg m A B).2.1.vel.2 - A.vel.2)
        A.getMass =
      scale ((CollisionSystem.resolveShipPairCollision cfg m A B).2.2.vel.1 - B.vel.1,
          (CollisionSystem.resolveShipPairCollision cfg m A B).2.2.vel.2 - B.vel.2)
        (-B.getMass) := by
  have hco : ¬ distSqOf A B ≤ 1e-6 := hdist
  have hco' : ¬ distSqOf B A ≤ 1e-6 := by rw [distSqOf_comm]; exact hdist
  by_cases hg : (A.isSinking = true ∧ A.isFullySunkProp) ∨
      (B.isSinking = true ∧ B.isFullySunkProp)
  · have hg2 : (B.isSinking = true ∧ B.isFullySunkProp) ∨
        (A.isSinking = true ∧ A.isFullySunkProp) := hg.symm
    rw [resolve_ghost cfg m A B hg, resolve_ghost cfg m B A hg2]
    refine ⟨rfl, rfl, rfl, by ring, by ring, ?_, ?_⟩ <;>
      · unfold scale
        norm_num
  have hg' : ¬ ((B.isSinking = true ∧ B.isFullySunkProp) ∨
      (A.isSinking = true ∧ A.isFullySunkProp)) := fun h => hg h.symm
  by_cases hov : (A.getCollisionRadius + B.getCollisionRadius) *
      (A.getCollisionRadius + B.getCollisionRadius) ≤ distSqOf A B
  · have hov2 : (B.getCollisionRadius + A.getCollisionRadius) *
        (B.getCollisionRadius + A.getCollisionRadius) ≤ distSqOf B A := by
      rw [distSqOf_comm, add_comm B.getCollisionRadius A.getCollisionRadius]
      exact hov
    rw [resolve_miss cfg m A B hg hco hov, resolve_miss cfg m B A hg' hco' hov2]
    refine ⟨rfl, rfl, rfl, by ring, by ring, ?_, ?_⟩ <;>
      · unfold scale
        norm_num
  have hov' : ¬ (B.getCollisionRadius + A.getCollisionRadius) *
      (B.getCollisionRadius + A.getCollisionRadius) ≤ distSqOf B A := by
    rw [distSqOf_comm, add_comm B.getCollisionRadius A.getCollisionRadius]
    exact hov
  by_cases hcl : 0 ≤ relNOf A B
  · have hcl' : 0 ≤ relNOf B A := by rw [relNOf_swap]; exact hcl
    rw [resolve_separate cfg m A B hg hco hov hcl,
      resolve_separate cfg m B A hg' hco' hov' hcl',
      separatedFirst_swap A B, separatedSecond_swap A B]
    refine ⟨rfl, rfl, rfl, ?_, ?_, ?_, ?_⟩
    · simp only [separatedFirst, separatedSecond]
      ring
    · simp only [separatedFirst, separatedSecond]
      ring
    · simp only [separatedFirst, separatedSecond, scale, corrOf, corrOf2,
        Prod.mk.injEq]
      constructor <;> ring
    · simp only [separatedFirst, separatedSecond, scale, Prod.mk.injEq]
      constructor <;> ring
  · have hcl' : ¬ 0 ≤ relNOf B A := by rw [relNOf_swap]; exact hcl
    have e1 := resolve_impulse cfg m A B hg hco hov hcl
    have e2 := resolve_impulse cfg m B A hg' hco' hov' hcl'
    rw [impulsedFirst_swap cfg A B, impulsedSecond_swap cfg A B,
      relSpeedOf_swap A B, nxOf_swap A B, nyOf_swap A B,
      applyRammingDamage_setAngVel, applyRammingDamage_swap] at e2
    obtain ⟨kp1, kv1, ka1, kp2, kv2, ka2⟩ :=
      applyRammingDamage_kin cfg m (impulsedFirst cfg A B) (impulsedSecond cfg A B)
        (relSpeedOf A B) (nxOf A B) (nyOf A B)
    rw [e1, e2]
    refine ⟨rfl, rfl, rfl, ?_, ?_, ?_, ?_⟩
    · show A.angVel + relTOf A B * 0.0008 - A.angVel = _
      rw [ka1]
      simp only [impulsedFirst]
      ring
    · show B.angVel - relTOf A B * 0.0008 - B.angVel = _
      rw [ka2]
      simp only [impulsedSecond]
      ring
    · rw [kp1, kp2]
      simp only [impulsedFirst, impulsedSecond, scale, corrOf, corrOf2,
        Prod.mk.injEq]
      constructor <;> ring
    · rw [kv1, kv2]
      simp only [impulsedFirst, impulsedSecond, scale, Prod.mk.injEq]
      constructor <;>
        · field_simp
          ring

/-- C6 (counterexample): the claimed order-independence fails.  The
default ship rammed by a small ship closing with a sideways velocity
component ends with angular velocity -0.004 when the pair is resolved as
(testShip, rammerShip) but +0.004 when resolved as (rammerShip,
testShip): the angular kick's sign depends on the processing order. -/
theorem resolve_pair_order_counterexample :
    (CollisionSystem.resolveShipPairCollision probeConfig emptyCooldowns
      testShip rammerShip).2.1.angVel ≠
    (CollisionSystem.resolveShipPairCollision probeConfig emptyCooldowns
      rammerShip testShip).2.2.angVel := by
  have hds : distSqOf testShip rammerShip = 1 := by
    unfold distSqOf rammerShip testShip
    norm_num
  have hg : ¬ ((testShip.isSinking = true ∧ testShip.isFullySunkProp) ∨
      (rammerShip.isSinking = true ∧ rammerShip.isFullySunkProp)) := by
    unfold rammerShip testShip
    simp
  have hg' : ¬ ((rammerShip.isSinking = true ∧ rammerShip.isFullySunkProp) ∨
      (testShip.isSinking = true ∧ testShip.isFullySunkProp)) := fun h => hg h.symm
  have hco : ¬ distSqOf testShip rammerShip ≤ 1e-6 := by
    rw [hds]; norm_num
  have hco' : ¬ distSqOf rammerShip testShip ≤ 1e-6 := by
    rw [distSqOf_comm, hds]; norm_num
  have r1 : testShip.getCollisionRadius = 42 := by
    unfold Ship.getCollisionRadius testShip
    rw [max_eq_left (by norm_num)]
    norm_num
  have r2 : rammerShip.getCollisionRadius = 0.7 := by
    unfold Ship.getCollisionRadius rammerShip testShip
    rw [max_eq_left (by norm_num)]
    norm_num
  have hov : ¬ (testShip.getCollisionRadius + rammerShip.getCollisionRadius) *
      (testShip.getCollisionRadius + rammerShip.getCollisionRadius) ≤
      distSqOf testShip rammerShip := by
    rw [r1, r2, hds]; norm_num
  have hov' : ¬ (rammerShip.getCollisionRadius + testShip.getCollisionRadius) *
      (rammerShip.getCollisionRadius + testShip.getCollisionRadius) ≤
      distSqOf rammerShip testShip := by
    rw [r1, r2, distSqOf_comm, hds]; norm_num
  have hnx : nxOf testShip rammerShip = 1 := by
    unfold nxOf
    rw [hds, Real.sqrt_one]
    unfold rammerShip testShip
    norm_num
  have hny : nyOf testShip rammerShip = 0 := by
    unfold nyOf
    rw [hds, Real.sqrt_one]
    unfold rammerShip testShip
    norm_num
  have hrt : relTOf testShip rammerShip = 5 := by
    unfold relTOf
    rw [hnx, hny]
    unfold rammerShip testShip
    norm_num
  have hcl : ¬ 0 ≤ relNOf testShip rammerShip := by
    unfold relNOf
    rw [hnx, hny]
    unfold rammerShip testShip
    norm_num
  have hcl' : ¬ 0 ≤ relNOf rammerShip testShip := by
    rw [relNOf_swap]; exact hcl
  have e1 := resolve_impulse probeConfig emptyCooldowns testShip rammerShip
    hg hco hov hcl
  have e2 := resolve_impulse probeConfig emptyCooldowns rammerShip testShip
    hg' hco' hov' hcl'
  obtain ⟨_, _, ka1, _, _, _⟩ := applyRammingDamage_kin probeConfig emptyCooldowns
    (impulsedFirst probeConfig testShip rammerShip)
    (impulsedSecond probeConfig testShip rammerShip)
    (relSpeedOf testShip rammerShip) (nxOf testShip rammerShip)
    (nyOf testShip rammerShip)
  obtain ⟨_, _, _, _, _, ka2⟩ := applyRammingDamage_kin probeConfig emptyCooldowns
    (impulsedFirst probeConfig rammerShip testShip)
    (impulsedSecond probeConfig rammerShip testShip)
    (relSpeedOf rammerShip testShip) (nxOf rammerShip testShip)
    (nyOf rammerShip testShip)
  rw [e1, e2, ka1, ka2]
  simp only [impulsedFirst, impulsedSecond]
  rw [relTOf_swap testShip rammerShip, hrt]
  unfold testShip
  norm_num

/-- C6 (witness): the amended order-swap theorem instantiated on the
default ship and the small rammer one unit away: the centers are one unit
apart and both masses are nonzero, so every hypothesis is satisfied. -/
theorem resolve_pair_swap_witness :
    ¬ distSqOf testShip rammerShip ≤ 1e-6 ∧
    testShip.getMass ≠ 0 ∧ rammerShip.getMass ≠ 0 ∧
    ((CollisionSystem.resolveShipPairCollision probeConfig emptyCooldowns
        rammerShip testShip).1 =
      (CollisionSystem.resolveShipPairCollision probeConfig emptyCooldowns
        testShip rammerShip).1 ∧
    { (CollisionSystem.resolveShipPairCollision probeConfig emptyCooldowns
        rammerShip testShip).2.2 with angVel := (0 : ℝ) } =
      { (CollisionSystem.resolveShipPairCollision probeConfig emptyCooldowns
          testShip rammerShip).2.1 with angVel := (0 : ℝ) } ∧
    { (CollisionSystem.resolveShipPairCollision probeConfig emptyCooldowns
        rammerShip testShip).2.1 with angVel := (0 : ℝ) } =
      { (CollisionSystem.resolveShipPairCollision probeConfig emptyCooldowns
          testShip rammerShip).2.2 with angVel := (0 : ℝ) } ∧
    (CollisionSystem.resolveShipPairCollision probeConfig emptyCooldowns
        rammerShip testShip).2.2.angVel - testShip.angVel =
      -((CollisionSystem.resolveShipPairCollision probeConfig emptyCooldowns
        testShip rammerShip).2.1.angVel - testShip.angVel) ∧
    (CollisionSystem.resolveShipPairCollision probeConfig emptyCooldowns
        rammerShip testShip).2.1.angVel - rammerShip.angVel =
      -((CollisionSystem.resolveShipPairCollision probeConfig emptyCooldowns
        testShip rammerShip).2.2.angVel - rammerShip.angVel) ∧
    scale ((CollisionSystem.resolveShipPairCollision probeConfig emptyCooldowns
        testShip rammerShip).2.1.pos.1 - testShip.pos.1,
        (CollisionSystem.resolveShipPairCollision probeConfig emptyCooldowns
        testShip rammerShip).2.1.pos.2 - testShip.pos.2) testShip.getMass =
      scale ((CollisionSystem.resolveShipPairCollision probeConfig emptyCooldowns
          testShip rammerShip).2.2.pos.1 - rammerShip.pos.1,
          (CollisionSystem.resolveShipPairCollision probeConfig emptyCooldowns
          testShip rammerShip).2.2.pos.2 - rammerShip.pos.2)
        (-rammerShip.getMass) ∧
    scale ((CollisionSystem.resolveShipPairCollision probeConfig emptyCooldowns
        testShip rammerShip).2.1.vel.1 - testShip.vel.1,
        (CollisionSystem.resolveShipPairCollision probeConfig emptyCooldowns
        testShip rammerShip).2.1.vel.2 - testShip.vel.2) testShip.getMass =
      scale ((CollisionSystem.resolveShipPairCollision probeConfig emptyCooldowns
          testShip rammerShip).2.2.vel.1 - rammerShip.vel.1,
          (CollisionSystem.resolveShipPairCollision probeConfig emptyCooldowns
          testShip rammerShip).2.2.vel.2 - rammerShip.vel.2)
        (-rammerShip.getMass)) :=
  ⟨by unfold distSqOf rammerShip testShip; norm_num,
   by unfold Ship.getMass testShip; norm_num,
   by unfold Ship.getMass rammerShip testShip; norm_num,
   resolve_pair_swap probeConfig emptyCooldowns testShip rammerShip
     (by unfold distSqOf rammerShip testShip; norm_num)
     (by unfold Ship.getMass testShip; norm_num)
     (by unfold Ship.getMass rammerShip testShip; norm_num)⟩
